import Mathlib

set_option maxRecDepth 10000

/-!
# Verification of the flight-notification extractor (`data_parser/parser.py`)

Shallow embedding of the extraction pipeline.  Python strings are modelled as
`List Char` (the ASCII fragment of the character classes `\d`, `\s`, `[A-Z]`
is used; all inputs of interest are ASCII).  Python `float` values are
modelled by exact rationals extended with the infinities and NaN
(`PyFloat`); fallible code returns `Except PyErr` / `Option`.
-/

namespace DataParser

/-- ASCII decimal digit (code points 48-57), modelling the regex class
`\d` and `str.isdigit` on the inputs of interest. -/
def isPyDigit (c : Char) : Bool := 48 ≤ c.toNat && c.toNat ≤ 57

/-- ASCII whitespace, modelling the regex class `\s` and `str.strip()` /
`str.split()` whitespace. -/
def isPyWs (c : Char) : Bool :=
  c = ' ' || c = '\t' || c = '\n' || c = '\r' || c = '\x0b' || c = '\x0c'

/-- Numeric value of a digit character. -/
def dv (c : Char) : Nat := c.toNat - 48

/-- Value of a string of decimal digits, modelling `int()` on an
all-digit slice. -/
def decDigits (l : List Char) : Nat := l.foldl (fun a c => 10 * a + dv c) 0

/-- A raised Python exception. -/
inductive PyErr where
  | valueError (msg : String)
  | assertionError
  deriving DecidableEq, Repr

/-- A Python `float` result, modelled as an exact rational extended with the
special values.  (IEEE-754 rounding is idealised away: decimal literals are
read exactly; the claims under study only involve dyadic values such as 0.5
where the two notions agree.) -/
inductive PyFloat where
  | finite (q : ℚ)
  | inf
  | negInf
  | nan
  deriving DecidableEq, Repr

/-- `Coordinate`: decimal-degree latitude/longitude (floats modelled as ℚ;
every value ever constructed by the codec is an exact multiple of 1/60). -/
structure Coordinate where
  latitude : ℚ
  longitude : ℚ
  deriving DecidableEq, Repr

/-- `Coordinate.from_str`.  Source:
`assert len(value) == 11` (an `AssertionError` when it fails), then
`re.match(r'(\d{2})(\d{2})([NS])(\d{3})(\d{2})([EW])', value)` — the pattern
consumes exactly 11 characters, so on an 11-character string the prefix
match is a full match — raising `ValueError("Wrong coordinate format")` when
it fails; then `lat = int(lat_deg) + int(lat_min)/60.0` (negated for `S`)
and likewise for longitude (negated for `W`). -/
def Coordinate.from_str (value : List Char) : Except PyErr Coordinate :=
  match value with
  | [a1, a2, b1, b2, h1, c1, c2, c3, d1, d2, h2] =>
    if isPyDigit a1 && isPyDigit a2 && isPyDigit b1 && isPyDigit b2 &&
        (h1 = 'N' || h1 = 'S') &&
        isPyDigit c1 && isPyDigit c2 && isPyDigit c3 &&
        isPyDigit d1 && isPyDigit d2 &&
        (h2 = 'E' || h2 = 'W') then
      let lat : ℚ := (10 * dv a1 + dv a2 : ℕ) + (10 * dv b1 + dv b2 : ℕ) / 60
      let lon : ℚ :=
        (100 * dv c1 + 10 * dv c2 + dv c3 : ℕ) + (10 * dv d1 + dv d2 : ℕ) / 60
      Except.ok
        { latitude := if h1 = 'S' then -lat else lat
          longitude := if h2 = 'W' then -lon else lon }
    else
      Except.error (PyErr.valueError "Wrong coordinate format")
  | _ => Except.error PyErr.assertionError

/-! ## String utilities (models of the Python `str` methods used) -/

/-- Drop the given characters from both ends of a list, modelling
`str.strip()` / `str.strip(chars)`. -/
def stripBy (p : Char → Bool) (s : List Char) : List Char :=
  ((s.dropWhile p).reverse.dropWhile p).reverse

/-- `token.strip()` (whitespace). -/
def pyStrip (s : List Char) : List Char := stripBy isPyWs s

/-- `_clean_token`: `token.strip().strip('.,/')`. -/
def clean_token (s : List Char) : List Char :=
  stripBy (fun c => c = '.' || c = ',' || c = '/') (pyStrip s)

/-- Helper for `pySplitWs` (accumulator holds the current token reversed). -/
def pySplitWsAux : List Char → List Char → List (List Char)
  | [], acc => if acc = [] then [] else [acc.reverse]
  | c :: rest, acc =>
    if isPyWs c then
      if acc = [] then pySplitWsAux rest []
      else acc.reverse :: pySplitWsAux rest []
    else pySplitWsAux rest (c :: acc)

/-- `str.split()` with no argument: split on whitespace runs, dropping
empty pieces. -/
def pySplitWs (s : List Char) : List (List Char) := pySplitWsAux s []

/-- Line-break characters recognised by `str.splitlines()` (besides the
two-character `\r\n` handled separately). -/
def isLineBreak (c : Char) : Bool :=
  c = '\n' || c = '\r' || c = '\x0b' || c = '\x0c' ||
  c = '\x1c' || c = '\x1d' || c = '\x1e' || c = '\x85' ||
  c = '\u2028' || c = '\u2029'

/-- Helper for `splitlines` (accumulator holds the current line reversed). -/
def splitlinesAux : List Char → List Char → List (List Char)
  | [], acc => if acc = [] then [] else [acc.reverse]
  | '\r' :: '\n' :: rest, acc => acc.reverse :: splitlinesAux rest []
  | c :: rest, acc =>
    if isLineBreak c then acc.reverse :: splitlinesAux rest []
    else splitlinesAux rest (c :: acc)

/-- `str.splitlines()`. -/
def splitlines (s : List Char) : List (List Char) := splitlinesAux s []

/-- Python `x or y` on optional strings: `x` when truthy (present and
non-empty), else `y`. -/
def pyOrStr (a b : Option (List Char)) : Option (List Char) :=
  match a with
  | some l => if l = [] then b else some l
  | none => b

/-- Truthiness of an optional string (`if msg:`): present and non-empty. -/
def truthy (s : Option (List Char)) : Bool :=
  match s with
  | some l => l ≠ []
  | none => false

/-! ## Model of `float(string)` (CPython string-to-float conversion)

Grammar accepted by CPython: optional surrounding whitespace, an optional
sign, then either a case-insensitive `inf`/`infinity`/`nan` word or a
decimal mantissa `d+ | d+. | d+.d+ | .d+` with single underscores permitted
between digits, optionally followed by an exponent `[eE][+-]?d+`.
Everything else raises `ValueError` (modelled by `none`).  Values are read
exactly into ℚ. -/

/-- Consume a run of digits (with single underscores between digits) after
the first digit has been read: returns accumulated value, digit count and
the rest.  A trailing or doubled underscore is left in the rest (making the
overall parse fail, as in CPython). -/
def digitsUAux (acc cnt : Nat) : List Char → Nat × Nat × List Char
  | [] => (acc, cnt, [])
  | c :: rest =>
    if isPyDigit c then digitsUAux (10 * acc + dv c) (cnt + 1) rest
    else if c = '_' then
      match rest with
      | d :: rest2 =>
        if isPyDigit d then digitsUAux (10 * acc + dv d) (cnt + 1) rest2
        else (acc, cnt, c :: rest)
      | [] => (acc, cnt, [c])
    else (acc, cnt, c :: rest)

/-- Consume a non-empty digit run (underscores between digits allowed):
value, digit count, rest. -/
def digitsU : List Char → Option (Nat × Nat × List Char)
  | [] => none
  | c :: rest =>
    if isPyDigit c then some (digitsUAux (dv c) 1 rest) else none

/-- Mantissa of a float literal: `d+ | d+. | d+.d+ | .d+`; returns the
value and the rest. -/
def floatMantissa (s : List Char) : Option (ℚ × List Char) :=
  match s with
  | [] => none
  | c :: rest =>
    if c = '.' then
      match digitsU rest with
      | some (fv, fc, rest2) => some ((fv : ℚ) / 10 ^ fc, rest2)
      | none => none
    else
      match digitsU (c :: rest) with
      | some (iv, _, rest1) =>
        match rest1 with
        | [] => some ((iv : ℚ), [])
        | c2 :: rest2 =>
          if c2 = '.' then
            match digitsU rest2 with
            | some (fv, fc, rest3) => some ((iv : ℚ) + (fv : ℚ) / 10 ^ fc, rest3)
            | none => some ((iv : ℚ), rest2)
          else some ((iv : ℚ), c2 :: rest2)
      | none => none

/-- Optional exponent part `[eE][+-]?d+`: scale factor and rest; `none`
when an `e` is present but malformed. -/
def floatExp (s : List Char) : Option (ℚ × List Char) :=
  match s with
  | c :: rest =>
    if c = 'e' || c = 'E' then
      let signed : Bool × List Char :=
        match rest with
        | '-' :: r => (true, r)
        | '+' :: r => (false, r)
        | _ => (false, rest)
      match digitsU signed.2 with
      | some (ev, _, rest2) =>
        some (if signed.1 then ((10 : ℚ) ^ ev)⁻¹ else (10 : ℚ) ^ ev, rest2)
      | none => none
    else some (1, s)
  | [] => some (1, [])

/-- Optional leading sign: whether it is `-`, and the rest. -/
def pyFloatSign (s : List Char) : Bool × List Char :=
  match s with
  | [] => (false, [])
  | c :: r =>
    if c = '-' then (true, r)
    else if c = '+' then (false, r)
    else (false, c :: r)

/-- `float(s)` for a string argument; `none` models `ValueError`. -/
def pyFloatOfChars (s0 : List Char) : Option PyFloat :=
  let s1 := s0.dropWhile isPyWs
  let sgn : Bool × List Char := pyFloatSign s1
  let s2 := sgn.2
  let sl := s2.map Char.toLower
  if "infinity".toList.isPrefixOf sl then
    if (s2.drop 8).all isPyWs then
      some (if sgn.1 then PyFloat.negInf else PyFloat.inf)
    else none
  else if "inf".toList.isPrefixOf sl then
    if (s2.drop 3).all isPyWs then
      some (if sgn.1 then PyFloat.negInf else PyFloat.inf)
    else none
  else if "nan".toList.isPrefixOf sl then
    if (s2.drop 3).all isPyWs then some PyFloat.nan else none
  else
    match floatMantissa s2 with
    | some (m, rest) =>
      match floatExp rest with
      | some (sc, rest2) =>
        if rest2.all isPyWs then
          some (PyFloat.finite (if sgn.1 then -(m * sc) else m * sc))
        else none
      | none => none
    | none => none

/-! ## `re.search` machinery

`re.search(pat, s)` tries to match `pat` at every position of `s`, leftmost
first.  Each concrete pattern below is compiled by hand into an
at-this-position matcher; `reSearch` supplies the position scan. -/

/-- Try a positional matcher at every suffix, leftmost first
(`re.search`). -/
def reSearch (m : List Char → Option α) : List Char → Option α
  | [] => m []
  | c :: rest =>
    match m (c :: rest) with
    | some r => some r
    | none => reSearch m rest

/-- Match a literal prefix, returning the rest. -/
def litMatch (pat s : List Char) : Option (List Char) :=
  if pat.isPrefixOf s then some (s.drop pat.length) else none

/-- Match `\d{4}N\d{5}E` against the start of `s`, returning the
11-character match (the extractor regexes for `DEP/`, `DEST/`, `-ADEPZ `,
`-ADARRZ ` all capture this shape). -/
def takeCoordE (s : List Char) : Option (List Char) :=
  match s with
  | a1 :: a2 :: a3 :: a4 :: h1 :: b1 :: b2 :: b3 :: b4 :: b5 :: h2 :: _ =>
    if isPyDigit a1 && isPyDigit a2 && isPyDigit a3 && isPyDigit a4 &&
        h1 = 'N' &&
        isPyDigit b1 && isPyDigit b2 && isPyDigit b3 && isPyDigit b4 &&
        isPyDigit b5 && h2 = 'E' then
      some [a1, a2, a3, a4, h1, b1, b2, b3, b4, b5, h2]
    else none
  | _ => none

/-- Match `lit` followed by exactly `n` digits (`\d{n}` capture) at the
start of `s`. -/
def digitsAfter (lit : List Char) (n : Nat) (s : List Char) : Option (List Char) :=
  match litMatch lit s with
  | none => none
  | some rest =>
    let ds := rest.take n
    if ds.length = n && ds.all isPyDigit then some ds else none

/-- Match `lit` followed by a non-empty run of `p`-characters (`[...]+`
greedy capture at end of pattern = maximal run). -/
def runAfter (lit : List Char) (p : Char → Bool) (s : List Char) : Option (List Char) :=
  match litMatch lit s with
  | none => none
  | some rest =>
    let run := rest.takeWhile p
    if run = [] then none else some run

/-- Search for a literal marker followed by a `\\d{4}N\\d{5}E` capture
(the common shape of the four coordinate extractor regexes). -/
def coordSearch (lit m : List Char) : Option (List Char) :=
  reSearch (fun s =>
    match litMatch lit s with
    | some rest => takeCoordE rest
    | none => none) m

/-! ## Field extractors -/

/-- `_extract_bpla_id`: `re.search(r'\(SHR-([A-Z0-9]+)', shr_msg)`, then the
placeholders `ZZZZ`/`ZZZZZ` are filtered out. -/
def extract_bpla_id (shr : List Char) : Option (List Char) :=
  match reSearch (runAfter "(SHR-".toList
      (fun c => ('A' ≤ c && c ≤ 'Z') || isPyDigit c)) shr with
  | some run =>
    if run = "ZZZZ".toList || run = "ZZZZZ".toList then none else some run
  | none => none

/-- `_extract_bpla_type`: `re.search(r'TYP/([A-Z]+)', shr_msg)`, defaulting
to `"BLA"`. -/
def extract_bpla_type (shr : List Char) : List Char :=
  match reSearch (runAfter "TYP/".toList (fun c => 'A' ≤ c && c ≤ 'Z')) shr with
  | some run => run
  | none => "BLA".toList

/-- `_extract_departure_coordinates`: `re.search(r'DEP/(\d{4}N\d{5}E)', shr_msg)`. -/
def extract_departure_coordinates (shr : List Char) : Option (List Char) :=
  coordSearch "DEP/".toList shr

/-- `_extract_arrival_coordinates`: `re.search(r'DEST/(\d{4}N\d{5}E)', shr_msg)`. -/
def extract_arrival_coordinates (shr : List Char) : Option (List Char) :=
  coordSearch "DEST/".toList shr

/-- `_extract_dep_coordinates`: `re.search(r'-ADEPZ (\d{4}N\d{5}E)', dep_msg)`. -/
def extract_dep_coordinates (dep : List Char) : Option (List Char) :=
  coordSearch "-ADEPZ ".toList dep

/-- `_extract_arr_coordinates`: `re.search(r'-ADARRZ (\d{4}N\d{5}E)', arr_msg)`. -/
def extract_arr_coordinates (arr : List Char) : Option (List Char) :=
  coordSearch "-ADARRZ ".toList arr

/-! ## `datetime` model -/

/-- A civil datetime at minute resolution (the constructor is only ever
called with `second = 0`). -/
structure Datetime where
  year : Nat
  month : Nat
  day : Nat
  hour : Nat
  minute : Nat
  deriving DecidableEq, Repr

/-- Gregorian leap year. -/
def isLeapYear (y : Nat) : Bool := y % 4 = 0 && (y % 100 ≠ 0 || y % 400 = 0)

/-- Days in a month. -/
def daysInMonth (y m : Nat) : Nat :=
  if m = 2 then (if isLeapYear y then 29 else 28)
  else if m = 4 || m = 6 || m = 9 || m = 11 then 30
  else 31

/-- Range checks performed by the `datetime.datetime` constructor; a
violation raises `ValueError`. -/
def validDatetime (y mo d h mi : Nat) : Bool :=
  1 ≤ y && y ≤ 9999 && 1 ≤ mo && mo ≤ 12 && 1 ≤ d && d ≤ daysInMonth y mo &&
  h ≤ 23 && mi ≤ 59

/-- `datetime.datetime(year, month, day, hour, minute)`. -/
def datetimeMk (y mo d h mi : Nat) : Except PyErr Datetime :=
  if validDatetime y mo d h mi then
    Except.ok { year := y, month := mo, day := d, hour := h, minute := mi }
  else Except.error (PyErr.valueError "datetime argument out of range")

/-- Days before January 1 of the given year (proleptic Gregorian,
`datetime.toordinal` convention). -/
def daysBeforeYear (y : Nat) : Nat :=
  let n := y - 1
  365 * n + n / 4 - n / 100 + n / 400

/-- Days in the months strictly before month `m` of year `y`. -/
def daysBeforeMonth (y m : Nat) : Nat :=
  (match m with
   | 1 => 0 | 2 => 31 | 3 => 59 | 4 => 90 | 5 => 120 | 6 => 151
   | 7 => 181 | 8 => 212 | 9 => 243 | 10 => 273 | 11 => 304 | _ => 334) +
  (if 2 < m && isLeapYear y then 1 else 0)

/-- Seconds since the epoch 0001-01-01 00:00. -/
def Datetime.toSeconds (dt : Datetime) : ℤ :=
  86400 * ((daysBeforeYear dt.year + daysBeforeMonth dt.year dt.month
            + dt.day - 1 : Nat) : ℤ)
  + 3600 * (dt.hour : ℤ) + 60 * (dt.minute : ℤ)

/-- `(a - b).total_seconds()` for two datetimes — the signed difference in
seconds (exact here: both operands are whole minutes). -/
def dtSub (a b : Datetime) : ℤ := a.toSeconds - b.toSeconds

/-- Zero-padded decimal rendering (width 2), for `strftime`. -/
def pad2 (n : Nat) : List Char :=
  [Char.ofNat (48 + n / 10 % 10), Char.ofNat (48 + n % 10)]

/-- Zero-padded decimal rendering (width 4), for `strftime`. -/
def pad4 (n : Nat) : List Char :=
  [Char.ofNat (48 + n / 1000 % 10), Char.ofNat (48 + n / 100 % 10),
   Char.ofNat (48 + n / 10 % 10), Char.ofNat (48 + n % 10)]

/-- `dt.strftime("%Y-%m-%d %H:%M:%S")` (seconds are always 00: the
constructor is never given a seconds argument). -/
def Datetime.strftime (dt : Datetime) : List Char :=
  pad4 dt.year ++ '-' :: pad2 dt.month ++ '-' :: pad2 dt.day ++
  ' ' :: pad2 dt.hour ++ ':' :: pad2 dt.minute ++ ':' :: pad2 0

/-- Common body of `_extract_dep_datetime` / `_extract_arr_datetime` (the
two source functions are verbatim clones up to the marker literals):
search for `<date marker> (\\d{6})` and `<time marker> (\\d{4})`; when both
match, slice the digit groups as `YYMMDD` / `HHMM` and build
`datetime(2000+YY, MM, DD, HH, MM)` (which can raise `ValueError`);
otherwise `None`. -/
def extract_stamp (dlit tlit m : List Char) : Except PyErr (Option Datetime) :=
  match reSearch (digitsAfter dlit 6) m, reSearch (digitsAfter tlit 4) m with
  | some ds, some ts =>
    (datetimeMk (2000 + decDigits (ds.take 2)) (decDigits ((ds.drop 2).take 2))
      (decDigits (ds.drop 4)) (decDigits (ts.take 2))
      (decDigits (ts.drop 2))).map some
  | _, _ => Except.ok none

/-- `_extract_dep_datetime`: markers `-ADD` / `-ATD`. -/
def extract_dep_datetime (dep : List Char) : Except PyErr (Option Datetime) :=
  extract_stamp "-ADD ".toList "-ATD ".toList dep

/-- `_extract_arr_datetime`: markers `-ADA` / `-ATA`. -/
def extract_arr_datetime (arr : List Char) : Except PyErr (Option Datetime) :=
  extract_stamp "-ADA ".toList "-ATA ".toList arr

/-! ## Zone resolver -/

/-- `ZoneType`. -/
inductive ZoneType where
  | center
  | path
  | id
  deriving DecidableEq, Repr

/-- `Zone` is a `TypedDict(total=False)`: each construction site populates
`type` plus the keys of one variant, so every key except `type` is
optional here.  (Claim C9 is about exactly this shape discipline.) -/
structure Zone where
  type : ZoneType
  center : Option Coordinate := none
  radius : Option PyFloat := none
  id : Option (List Char) := none
  path : Option (List Coordinate) := none
  deriving DecidableEq, Repr

/-- `_is_coordinate_token`: `re.fullmatch(r'\d{4}[NS]\d{5}[EW]', token)`. -/
def is_coordinate_token (t : List Char) : Bool :=
  match t with
  | [a1, a2, a3, a4, h1, b1, b2, b3, b4, b5, h2] =>
    isPyDigit a1 && isPyDigit a2 && isPyDigit a3 && isPyDigit a4 &&
    (h1 = 'N' || h1 = 'S') &&
    isPyDigit b1 && isPyDigit b2 && isPyDigit b3 && isPyDigit b4 &&
    isPyDigit b5 && (h2 = 'E' || h2 = 'W')
  | _ => false

/-- The comma-to-dot substitution of `_parse_radius`
(`.replace(',', '.')`). -/
def commaDot (c : Char) : Char := if c = ',' then '.' else c

/-- `_parse_radius`: strip, uppercase, require the prefix `R`
(`value.startswith('R')`), replace every `,` with `.` in `value[1:]`,
reject an empty remainder, then `float(...)` with `ValueError` caught
(`None`). -/
def parse_radius (token : List Char) : Option PyFloat :=
  let value := (pyStrip token).map Char.toUpper
  if "R".toList.isPrefixOf value then
    let number := (value.drop 1).map commaDot
    if number = [] then none else pyFloatOfChars number
  else none

/-- Left-to-right effectful traversal, modelling a list comprehension whose
element expression can raise: the first raise aborts the whole list. -/
def exceptMap (f : α → Except PyErr β) : List α → Except PyErr (List β)
  | [] => Except.ok []
  | a :: l => do
    let b ← f a
    let bs ← exceptMap f l
    Except.ok (b :: bs)

/-- The token list built by `_parse_zone_content`:
`content.replace('\n', ' ').split()`, each token cleaned, empties
dropped. -/
def zoneTokens (content : List Char) : List (List Char) :=
  ((pySplitWs (content.map (fun c => if c = '\n' then ' ' else c))).map
    clean_token).filter (fun t => t ≠ [])

/-- The guarded radius-then-center step of `_parse_zone_content`:
`first.upper().startswith('R') and len(tokens) >= 2`, then
`radius = _parse_radius(first)` and the first coordinate-shaped token of
`tokens[1:]`; succeeds only when both are found. -/
def zoneRBranch : List (List Char) → Option (PyFloat × List Char)
  | [] => none
  | first :: restTokens =>
    if ("R".toList.isPrefixOf (first.map Char.toUpper)) &&
        decide (2 ≤ (first :: restTokens).length) then
      match parse_radius first, restTokens.find? is_coordinate_token with
      | some radius, some centerTok => some (radius, centerTok)
      | _, _ => none
    else none

/-- `_parse_zone_content` after tokenisation: the cascading decision
tree.  The only fallible step is `Coordinate.from_str`. -/
def parse_zone_content (content : List Char) : Except PyErr (Option Zone) :=
  match zoneTokens content with
  | [] => Except.ok none
  | first :: restTokens =>
    match zoneRBranch (first :: restTokens) with
    | some (radius, centerTok) => do
      let c ← Coordinate.from_str centerTok
      Except.ok (some { type := ZoneType.center, center := some c,
                        radius := some radius })
    | none =>
      let coord_tokens := (first :: restTokens).filter is_coordinate_token
      if 1 < coord_tokens.length then do
        let cs ← exceptMap Coordinate.from_str coord_tokens
        Except.ok (some { type := ZoneType.path, path := some cs })
      else if (first :: restTokens).length = 1 ∧ is_coordinate_token first = false then
        Except.ok (some { type := ZoneType.id, id := some first })
      else
        match coord_tokens with
        | [ct] => do
          let c ← Coordinate.from_str ct
          Except.ok (some { type := ZoneType.path, path := some [c] })
        | _ => Except.ok (some { type := ZoneType.id, id := some first })

/-- The stripped `-K` lines of the shorthand message:
`[line.strip() for line in shr_msg.splitlines() if line.strip().startswith('-K')]`. -/
def kLines (shr : List Char) : List (List Char) :=
  ((splitlines shr).map pyStrip).filter (fun l => "-K".toList.isPrefixOf l)

/-- `_extract_k_zone`: `None` when no `-K` line, `ValueError` when more
than one, else the cleaned coordinate-shaped tokens of the single line
(after dropping the marker token), or `None` when none remain. -/
def extract_k_zone (shr : List Char) : Except PyErr (Option (List (List Char))) :=
  match kLines shr with
  | [] => Except.ok none
  | [kl] =>
    let coords := (((pySplitWs kl).drop 1).map clean_token).filter
      is_coordinate_token
    Except.ok (if coords = [] then none else some coords)
  | _ => Except.error (PyErr.valueError "Multiple -K lines found in SHR message")

/-! ### The `/ZONA` regex

`re.search(r'/ZONA\s+([^/]+)', shr_msg)`.  At a given position the pattern
is the literal `/ZONA` followed by `\s+` then the capture `([^/]+)`, both
greedy with backtracking.  With `a` the maximal whitespace run and `r` the
maximal non-`/` run after the literal (`a ≤ r`, whitespace not being `/`),
the tail matches iff `a ≥ 1` and there is a split `k + j` with
`1 ≤ k ≤ a` and `j ≥ 1` non-`/` characters following, i.e. `a ≥ 1 ∧ r ≥ 2`;
greediness takes `k = a` when `r > a` (capture = characters `a..r`), and
`k = a - 1` when `r = a ≥ 2` (capture = the last whitespace character). -/

/-- Positional matcher for `/ZONA\s+([^/]+)`, returning the capture. -/
def zonaMatchAt (s : List Char) : Option (List Char) :=
  match litMatch "/ZONA".toList s with
  | none => none
  | some t =>
    let a := (t.takeWhile isPyWs).length
    let r := (t.takeWhile (fun c => c ≠ '/')).length
    if a = 0 then none
    else if a < r then some ((t.drop a).take (r - a))
    else if 2 ≤ a then some ((t.drop (a - 1)).take 1)
    else none

/-- The capture of `re.search(r'/ZONA\s+([^/]+)', shr_msg)`. -/
def zonaCapture (shr : List Char) : Option (List Char) :=
  reSearch zonaMatchAt shr

/-- The `-K` fallback of `_extract_zone`:
`path_coords = _extract_k_zone(shr_msg); if path_coords: return Path(...);
return None` (`if path_coords:` tests the list non-empty). -/
def kFallback (shr : List Char) : Except PyErr (Option Zone) := do
  let pcs ← extract_k_zone shr
  match pcs with
  | some l =>
    if l ≠ [] then do
      let cs ← exceptMap Coordinate.from_str l
      Except.ok (some { type := ZoneType.path, path := some cs })
    else Except.ok none
  | none => Except.ok none

/-- `_extract_zone`: the `/ZONA` branch (`if zone: return zone`, a
truthiness test on a never-empty dict), falling back to the `-K` path
line. -/
def extract_zone (shr : List Char) : Except PyErr (Option Zone) := do
  let z ← match zonaCapture shr with
    | some content => parse_zone_content content
    | none => Except.ok none
  match z with
  | some zone => Except.ok (some zone)
  | none => kFallback shr

/-! ## Record assembler -/

/-- `FlightPoint`. -/
structure FlightPoint where
  coordinate : Option Coordinate := none
  date : Option Datetime := none
  deriving DecidableEq, Repr

/-- `FlightInfo`; `duration` is the `timedelta` modelled as signed whole
seconds (the difference of two minute-resolution datetimes is always a
whole number of seconds). -/
structure FlightInfo where
  bpla_id : Option (List Char)
  bpla_type : List Char
  departure : FlightPoint
  arrival : FlightPoint
  duration : Option ℤ := none
  zone : Option Zone := none
  deriving DecidableEq, Repr

/-- The dict produced by `FlightPoint.to_json_dict` (a datetime is always
truthy, so `date` is formatted exactly when present). -/
structure FlightPointJson where
  coordinate : Option Coordinate
  date : Option (List Char)
  deriving DecidableEq, Repr

/-- The dict produced by `FlightInfo.to_json_dict`. -/
structure FlightInfoJson where
  bpla_id : Option (List Char)
  bpla_type : List Char
  departure : FlightPointJson
  arrival : FlightPointJson
  duration : Option ℤ
  zone : Option Zone
  deriving DecidableEq, Repr

/-- `FlightPoint.to_json_dict`. -/
def FlightPoint.to_json_dict (p : FlightPoint) : FlightPointJson :=
  { coordinate := p.coordinate
    date := p.date.map Datetime.strftime }

/-- `FlightInfo.to_json_dict`.  `self.duration.total_seconds() if
self.duration else None`: `if self.duration` is a truthiness test, false
both for `None` and for a zero `timedelta`. -/
def FlightInfo.to_json_dict (f : FlightInfo) : FlightInfoJson :=
  { bpla_id := f.bpla_id
    bpla_type := f.bpla_type
    departure := f.departure.to_json_dict
    arrival := f.arrival.to_json_dict
    duration := match f.duration with
      | some s => if s = 0 then none else some s
      | none => none
    zone := f.zone }

/-- The `dep_coords` stage: `None` unless `dep_msg` is truthy, else the
`-ADEPZ` lookup. -/
def depCoordsOf (dep_msg : Option (List Char)) : Option (List Char) :=
  if truthy dep_msg then extract_dep_coordinates (dep_msg.getD []) else none

/-- The `arr_coords` stage: `None` unless `arr_msg` is truthy, else the
`-ADARRZ` lookup. -/
def arrCoordsOf (arr_msg : Option (List Char)) : Option (List Char) :=
  if truthy arr_msg then extract_arr_coordinates (arr_msg.getD []) else none

/-- The `dep_date` stage. -/
def depDateOf (dep_msg : Option (List Char)) : Except PyErr (Option Datetime) :=
  if truthy dep_msg then extract_dep_datetime (dep_msg.getD [])
  else Except.ok none

/-- The `arr_date` stage. -/
def arrDateOf (arr_msg : Option (List Char)) : Except PyErr (Option Datetime) :=
  if truthy arr_msg then extract_arr_datetime (arr_msg.getD [])
  else Except.ok none

/-- `if coords is not None: coords = Coordinate.from_str(coords)`. -/
def decodeOpt (o : Option (List Char)) : Except PyErr (Option Coordinate) :=
  match o with
  | some t => (Coordinate.from_str t).map some
  | none => Except.ok none

/-- The `duration` computation: `arr_date - dep_date` when both are
present. -/
def durationOf (dep_date arr_date : Option Datetime) : Option ℤ :=
  match dep_date, arr_date with
  | some d, some a => some (dtSub a d)
  | _, _ => none

/-- `parse_flight_info(shr_msg, dep_msg, arr_msg)`.  `if dep_msg:` /
`if arr_msg:` are truthiness tests (an empty string counts as absent);
coordinates are merged with Python `or` (DEP/ARR message first) and then
decoded; the duration is `arr_date - dep_date` when both are present. -/
def parse_flight_info (shr : List Char) (dep_msg arr_msg : Option (List Char)) :
    Except PyErr FlightInfo := do
  let bpla_id := extract_bpla_id shr
  let bpla_type := extract_bpla_type shr
  let shr_departure_coords := extract_departure_coordinates shr
  let shr_arrival_coords := extract_arrival_coordinates shr
  let zone ← extract_zone shr
  let dep_coords := depCoordsOf dep_msg
  let dep_date ← depDateOf dep_msg
  let arr_coords := arrCoordsOf arr_msg
  let arr_date ← arrDateOf arr_msg
  let departure_coords ← decodeOpt (pyOrStr dep_coords shr_departure_coords)
  let arrival_coords ← decodeOpt (pyOrStr arr_coords shr_arrival_coords)
  let duration : Option ℤ := durationOf dep_date arr_date
  Except.ok
    { bpla_id := bpla_id
      bpla_type := bpla_type
      departure := { coordinate := departure_coords, date := dep_date }
      arrival := { coordinate := arrival_coords, date := arr_date }
      duration := duration
      zone := zone }

/-! ## Derived observations used to state the claims -/

/-- Whether the `/ZONA` branch of `_extract_zone` yields a zone (so that
the `-K` fallback is never consulted). -/
def zonaYieldsZone (shr : List Char) : Bool :=
  match zonaCapture shr with
  | some content =>
    match parse_zone_content content with
    | Except.ok (some _) => true
    | _ => false
  | none => false

/-- The ambiguity condition that aborts extraction: the `/ZONA` branch
yields no zone and more than one `-K` line exists. -/
def zoneAmbiguity (shr : List Char) : Bool :=
  !zonaYieldsZone shr && decide (1 < (kLines shr).length)

/-- Whether a message contains a complete date/time marker pair whose digit
groups denote an out-of-range date or time (the condition on which the
`datetime` constructor raises). -/
def stampBad (dlit tlit m : List Char) : Bool :=
  match reSearch (digitsAfter dlit 6) m, reSearch (digitsAfter tlit 4) m with
  | some ds, some ts =>
    !validDatetime (2000 + decDigits (ds.take 2)) (decDigits ((ds.drop 2).take 2))
      (decDigits (ds.drop 4)) (decDigits (ts.take 2)) (decDigits (ts.drop 2))
  | _, _ => false

/-- `stampBad` for the `-ADD`/`-ATD` pair. -/
def depStampBad (m : List Char) : Bool := stampBad "-ADD ".toList "-ATD ".toList m

/-- `stampBad` for the `-ADA`/`-ATA` pair. -/
def arrStampBad (m : List Char) : Bool := stampBad "-ADA ".toList "-ATA ".toList m

/-- The departure-timestamp failure condition of a record. -/
def depTimestampErr (dep_msg : Option (List Char)) : Bool :=
  truthy dep_msg && depStampBad (dep_msg.getD [])

/-- The arrival-timestamp failure condition of a record. -/
def arrTimestampErr (arr_msg : Option (List Char)) : Bool :=
  truthy arr_msg && arrStampBad (arr_msg.getD [])

/-- A digit character from a value `0..9`. -/
def digitChar (n : Nat) : Char := Char.ofNat (48 + n)

/-- Two-digit zero-padded rendering of `n < 100`. -/
def twoDigits (n : Nat) : List Char := [digitChar (n / 10 % 10), digitChar (n % 10)]

/-- Three-digit zero-padded rendering of `n < 1000`. -/
def threeDigits (n : Nat) : List Char :=
  [digitChar (n / 100 % 10), digitChar (n / 10 % 10), digitChar (n % 10)]

/-- Modelled from the spec: the repository has no geo-token encoder; the
round-trip property of §8 speaks of "decoding then re-encoding (rounding
to the original minute resolution)".  Encoder following the spec's words:
round the absolute values back to whole minutes, split into degrees and
minutes, restore the hemisphere letters from the signs. -/
def encodeCoord (c : Coordinate) : List Char :=
  let latTm := (round (|c.latitude| * 60)).toNat
  let lonTm := (round (|c.longitude| * 60)).toNat
  twoDigits (latTm / 60) ++ twoDigits (latTm % 60) ++
  [if c.latitude < 0 then 'S' else 'N'] ++
  threeDigits (lonTm / 60) ++ twoDigits (lonTm % 60) ++
  [if c.longitude < 0 then 'W' else 'E']

/-- The spec's notion of "a decimal number in which a comma is accepted as
the decimal separator" (claim C7): digit characters with at most one
separator (`,` or `.`) and at least one digit. -/
def specIsDecimalNumber (s : List Char) : Bool :=
  (s.all fun c => isPyDigit c || c = ',' || c = '.') &&
  decide (s.countP (fun c => c = ',' || c = '.') ≤ 1) &&
  s.any isPyDigit

/-! ## Helper lemmas -/

theorem reSearch_some {α : Type} (m : List Char → Option α) (P : α → Prop)
    (hm : ∀ s x, m s = some x → P x) :
    ∀ s x, reSearch m s = some x → P x := by
  intro s
  induction s with
  | nil => exact fun x hx => hm [] x hx
  | cons c rest ih =>
    intro x hx
    simp only [reSearch] at hx
    cases hmc : m (c :: rest) with
    | some r =>
      rw [hmc] at hx
      simp only [Option.some.injEq] at hx
      exact hx ▸ hm _ r hmc
    | none =>
      rw [hmc] at hx
      exact ih x hx

theorem takeCoordE_spec {s t : List Char} (h : takeCoordE s = some t) :
    t ≠ [] ∧ (Coordinate.from_str t).isOk = true := by
  rcases s with _ | ⟨a1, s⟩; · simp [takeCoordE] at h
  rcases s with _ | ⟨a2, s⟩; · simp [takeCoordE] at h
  rcases s with _ | ⟨a3, s⟩; · simp [takeCoordE] at h
  rcases s with _ | ⟨a4, s⟩; · simp [takeCoordE] at h
  rcases s with _ | ⟨h1, s⟩; · simp [takeCoordE] at h
  rcases s with _ | ⟨b1, s⟩; · simp [takeCoordE] at h
  rcases s with _ | ⟨b2, s⟩; · simp [takeCoordE] at h
  rcases s with _ | ⟨b3, s⟩; · simp [takeCoordE] at h
  rcases s with _ | ⟨b4, s⟩; · simp [takeCoordE] at h
  rcases s with _ | ⟨b5, s⟩; · simp [takeCoordE] at h
  rcases s with _ | ⟨h2, s⟩; · simp [takeCoordE] at h
  simp only [takeCoordE] at h
  split_ifs at h with hc
  simp only [Option.some.injEq] at h
  subst h
  simp only [Bool.and_eq_true, decide_eq_true_eq] at hc
  obtain ⟨⟨⟨⟨⟨⟨⟨⟨⟨⟨c1, c2⟩, c3⟩, c4⟩, c5⟩, c6⟩, c7⟩, c8⟩, c9⟩, c10⟩, c11⟩ := hc
  refine ⟨by simp, ?_⟩
  simp [Coordinate.from_str, c1, c2, c3, c4, c5, c6, c7, c8, c9, c10, c11,
    Except.isOk, Except.toBool]

theorem is_coordinate_token_from_str {t : List Char}
    (h : is_coordinate_token t = true) : (Coordinate.from_str t).isOk = true := by
  rcases t with _ | ⟨a1, t⟩; · simp [is_coordinate_token] at h
  rcases t with _ | ⟨a2, t⟩; · simp [is_coordinate_token] at h
  rcases t with _ | ⟨a3, t⟩; · simp [is_coordinate_token] at h
  rcases t with _ | ⟨a4, t⟩; · simp [is_coordinate_token] at h
  rcases t with _ | ⟨h1, t⟩; · simp [is_coordinate_token] at h
  rcases t with _ | ⟨b1, t⟩; · simp [is_coordinate_token] at h
  rcases t with _ | ⟨b2, t⟩; · simp [is_coordinate_token] at h
  rcases t with _ | ⟨b3, t⟩; · simp [is_coordinate_token] at h
  rcases t with _ | ⟨b4, t⟩; · simp [is_coordinate_token] at h
  rcases t with _ | ⟨b5, t⟩; · simp [is_coordinate_token] at h
  rcases t with _ | ⟨h2, t⟩; · simp [is_coordinate_token] at h
  rcases t with _ | ⟨x, t⟩
  · simp only [is_coordinate_token, Bool.and_eq_true, decide_eq_true_eq] at h
    obtain ⟨⟨⟨⟨⟨⟨⟨⟨⟨⟨c1, c2⟩, c3⟩, c4⟩, c5⟩, c6⟩, c7⟩, c8⟩, c9⟩, c10⟩, c11⟩ := h
    simp [Coordinate.from_str, c1, c2, c3, c4, c5, c6, c7, c8, c9, c10, c11,
      Except.isOk, Except.toBool]
  · simp [is_coordinate_token] at h

theorem except_isOk_iff {α : Type} {x : Except PyErr α} :
    x.isOk = true ↔ ∃ a, x = Except.ok a := by
  cases x <;> simp [Except.isOk, Except.toBool]

theorem from_str_ok_exists {t : List Char} (h : (Coordinate.from_str t).isOk = true) :
    ∃ c, Coordinate.from_str t = Except.ok c := except_isOk_iff.mp h

theorem ok_bind {α β : Type} (a : α) (f : α → Except PyErr β) :
    (Except.ok a >>= f : Except PyErr β) = f a := rfl

theorem error_bind {α β : Type} (e : PyErr) (f : α → Except PyErr β) :
    ((Except.error e : Except PyErr α) >>= f) = Except.error e := rfl

theorem exceptMap_coord_ok (l : List (List Char))
    (h : ∀ t ∈ l, is_coordinate_token t = true) :
    ∃ cs, exceptMap Coordinate.from_str l = Except.ok cs ∧ cs.length = l.length := by
  induction l with
  | nil => exact ⟨[], rfl, rfl⟩
  | cons a l ih =>
    obtain ⟨c, hc⟩ := from_str_ok_exists (is_coordinate_token_from_str (h a (by simp)))
    obtain ⟨cs, hcs, hlen⟩ := ih (fun t ht => h t (by simp [ht]))
    refine ⟨c :: cs, ?_, by simp [hlen]⟩
    simp [exceptMap, hc, hcs, ok_bind]

/-- The "exactly one variant populated" shape of a `Zone` value (claim C9):
a `Center` has a centre and radius and nothing else, a `Path` has a
non-empty path and nothing else, an `Id` has an identifier and nothing
else. -/
def ZoneInv (z : Zone) : Prop :=
  (z.type = ZoneType.center ∧ z.center.isSome = true ∧ z.radius.isSome = true ∧
    z.id = none ∧ z.path = none) ∨
  (z.type = ZoneType.path ∧ (∃ l, z.path = some l ∧ l ≠ []) ∧
    z.center = none ∧ z.radius = none ∧ z.id = none) ∨
  (z.type = ZoneType.id ∧ z.id.isSome = true ∧
    z.center = none ∧ z.radius = none ∧ z.path = none)

theorem zoneRBranch_coord {l : List (List Char)} {r : PyFloat} {ct : List Char}
    (h : zoneRBranch l = some (r, ct)) : is_coordinate_token ct = true := by
  match l with
  | [] => simp [zoneRBranch] at h
  | first :: restTokens =>
    simp only [zoneRBranch] at h
    split_ifs at h
    · cases hr : parse_radius first with
      | none => rw [hr] at h; simp at h
      | some radius =>
        cases hf : restTokens.find? is_coordinate_token with
        | none => rw [hr, hf] at h; simp at h
        | some c =>
          rw [hr, hf] at h
          simp only [Option.some.injEq, Prod.mk.injEq] at h
          exact h.2 ▸ List.find?_some hf

theorem parse_zone_content_ok (content : List Char) :
    ∃ z, parse_zone_content content = Except.ok z ∧
      ∀ zz, z = some zz → ZoneInv zz := by
  cases hzt : zoneTokens content with
  | nil => exact ⟨none, by simp [parse_zone_content, hzt], by simp⟩
  | cons first restTokens =>
    cases hrb : zoneRBranch (first :: restTokens) with
    | some p =>
      obtain ⟨radius, centerTok⟩ := p
      obtain ⟨c, hc⟩ := from_str_ok_exists
        (is_coordinate_token_from_str (zoneRBranch_coord hrb))
      refine ⟨some ⟨ZoneType.center, some c, some radius, none, none⟩, ?_, ?_⟩
      · simp [parse_zone_content, hzt, hrb, hc, ok_bind]
      · intro zz hzz
        cases hzz
        exact Or.inl ⟨rfl, rfl, rfl, rfl, rfl⟩
    | none =>
      by_cases hlen : 1 < ((first :: restTokens).filter is_coordinate_token).length
      · obtain ⟨cs, hcs, hl⟩ := exceptMap_coord_ok
          ((first :: restTokens).filter is_coordinate_token)
          (fun t ht => (List.mem_filter.mp ht).2)
        refine ⟨some ⟨ZoneType.path, none, none, none, some cs⟩, ?_, ?_⟩
        · simp [parse_zone_content, hzt, hrb, hlen, hcs, ok_bind]
        · intro zz hzz
          cases hzz
          refine Or.inr (Or.inl ⟨rfl, ⟨cs, rfl, ?_⟩, rfl, rfl, rfl⟩)
          intro hnil
          rw [hnil] at hl
          simp only [List.length_nil] at hl
          omega
      · by_cases hone : (first :: restTokens).length = 1 ∧
            is_coordinate_token first = false
        · obtain ⟨h1, hfc⟩ := hone
          have hrt : restTokens = [] := by
            simp only [List.length_cons] at h1
            exact List.length_eq_zero.mp (by omega)
          subst hrt
          refine ⟨some ⟨ZoneType.id, none, none, some first, none⟩, ?_, ?_⟩
          · simp [parse_zone_content, hzt, hrb, hfc]
          · intro zz hzz
            cases hzz
            exact Or.inr (Or.inr ⟨rfl, rfl, rfl, rfl, rfl⟩)
        · cases hct : (first :: restTokens).filter is_coordinate_token with
          | nil =>
            refine ⟨some ⟨ZoneType.id, none, none, some first, none⟩, ?_, ?_⟩
            · simp only [parse_zone_content, hzt, hrb]
              rw [hct]
              simp [hone]
            · intro zz hzz
              cases hzz
              exact Or.inr (Or.inr ⟨rfl, rfl, rfl, rfl, rfl⟩)
          | cons ct cts =>
            cases cts with
            | nil =>
              have hmem : is_coordinate_token ct = true :=
                (List.mem_filter.mp (hct ▸ List.mem_singleton_self ct)).2
              obtain ⟨c, hc⟩ := from_str_ok_exists (is_coordinate_token_from_str hmem)
              refine ⟨some ⟨ZoneType.path, none, none, none, some [c]⟩, ?_, ?_⟩
              · simp only [parse_zone_content, hzt, hrb]
                rw [hct]
                simp only [hone, hc, ok_bind, List.length_cons, List.length_nil]
                simp [hone, hc, ok_bind]
                intro hrt
                subst hrt
                cases hb : is_coordinate_token first
                · simp [List.filter_cons, hb] at hct
                · rfl
              · intro zz hzz
                cases hzz
                exact Or.inr (Or.inl ⟨rfl, ⟨[c], rfl, by simp⟩, rfl, rfl, rfl⟩)
            | cons ct2 cts2 =>
              exfalso
              rw [hct] at hlen
              simp only [List.length_cons] at hlen
              omega

/-- The exact error raised on the `-K` ambiguity. -/
def multiKErr : PyErr := PyErr.valueError "Multiple -K lines found in SHR message"

theorem extract_k_zone_cases (shr : List Char) :
    (1 < (kLines shr).length ∧ extract_k_zone shr = Except.error multiKErr) ∨
    ((kLines shr).length ≤ 1 ∧ ∃ o, extract_k_zone shr = Except.ok o ∧
      ∀ l, o = some l → l ≠ [] ∧ ∀ t ∈ l, is_coordinate_token t = true) := by
  cases hk : kLines shr with
  | nil =>
    refine Or.inr ⟨by simp, none, ?_, by simp⟩
    simp [extract_k_zone, hk]
  | cons kl rest =>
    cases rest with
    | nil =>
      refine Or.inr ⟨by simp, ?_⟩
      by_cases hc : (((pySplitWs kl).drop 1).map clean_token).filter
          is_coordinate_token = []
      · refine ⟨none, ?_, by simp⟩
        simp only [extract_k_zone, hk]
        rw [if_pos hc]
      · refine ⟨some ((((pySplitWs kl).drop 1).map clean_token).filter
          is_coordinate_token), ?_, ?_⟩
        · simp only [extract_k_zone, hk]
          rw [if_neg hc]
        · intro l hl
          simp only [Option.some.injEq] at hl
          subst hl
          exact ⟨hc, fun t ht => (List.mem_filter.mp ht).2⟩
    | cons kl2 rest2 =>
      refine Or.inl ⟨by simp [hk], ?_⟩
      simp [extract_k_zone, hk, multiKErr]

theorem kFallback_spec (shr : List Char) :
    (1 < (kLines shr).length ∧ kFallback shr = Except.error multiKErr) ∨
    ((kLines shr).length ≤ 1 ∧ ∃ o, kFallback shr = Except.ok o ∧
      ∀ z, o = some z → ZoneInv z) := by
  rcases extract_k_zone_cases shr with ⟨hgt, herr⟩ | ⟨hle, o, hok, hsh⟩
  · refine Or.inl ⟨hgt, ?_⟩
    simp only [kFallback, herr, error_bind]
  · refine Or.inr ⟨hle, ?_⟩
    simp only [kFallback, hok, ok_bind]
    cases o with
    | none => exact ⟨none, rfl, by simp⟩
    | some l =>
      obtain ⟨hnil, hall⟩ := hsh l rfl
      obtain ⟨cs, hcs, hlen⟩ := exceptMap_coord_ok l hall
      refine ⟨some ⟨ZoneType.path, none, none, none, some cs⟩, ?_, ?_⟩
      · simp [kFallback, hok, hnil, hcs, ok_bind]
      · intro z hz
        simp only [Option.some.injEq] at hz
        subst hz
        refine Or.inr (Or.inl ⟨rfl, ⟨cs, rfl, ?_⟩, rfl, rfl, rfl⟩)
        intro h0
        rw [h0] at hlen
        simp only [List.length_nil] at hlen
        exact hnil (List.length_eq_zero.mp hlen.symm)

theorem extract_zone_spec (shr : List Char) :
    (zoneAmbiguity shr = true ∧ extract_zone shr = Except.error multiKErr) ∨
    (zoneAmbiguity shr = false ∧ ∃ o, extract_zone shr = Except.ok o ∧
      ∀ z, o = some z → ZoneInv z) := by
  have hfall : zonaYieldsZone shr = false →
      (zoneAmbiguity shr = true ∧ kFallback shr = Except.error multiKErr) ∨
      (zoneAmbiguity shr = false ∧ ∃ o, kFallback shr = Except.ok o ∧
        ∀ z, o = some z → ZoneInv z) := by
    intro hy
    rcases kFallback_spec shr with ⟨hgt, herr⟩ | ⟨hle, o, hok, hsh⟩
    · exact Or.inl ⟨by simp [zoneAmbiguity, hy, hgt], herr⟩
    · have hnlt : ¬1 < (kLines shr).length := by omega
      exact Or.inr ⟨by simp [zoneAmbiguity, hy, hnlt], o, hok, hsh⟩
  cases hcap : zonaCapture shr with
  | none =>
    have hy : zonaYieldsZone shr = false := by simp [zonaYieldsZone, hcap]
    have h := hfall hy
    have hez : extract_zone shr = kFallback shr := by
      simp only [extract_zone, hcap, ok_bind]
    rw [hez]
    exact h
  | some content =>
    obtain ⟨z, hz, hinv⟩ := parse_zone_content_ok content
    cases z with
    | some zone =>
      have hy : zonaYieldsZone shr = true := by
        simp [zonaYieldsZone, hcap, hz]
      refine Or.inr ⟨by simp [zoneAmbiguity, hy], some zone, ?_, ?_⟩
      · simp only [extract_zone, hcap, hz, ok_bind]
      · intro zz hzz
        simp only [Option.some.injEq] at hzz
        exact hzz ▸ hinv zone rfl
    | none =>
      have hy : zonaYieldsZone shr = false := by
        simp [zonaYieldsZone, hcap, hz]
      have h := hfall hy
      have hez : extract_zone shr = kFallback shr := by
        simp only [extract_zone, hcap, hz, ok_bind]
      rw [hez]
      exact h

theorem coordSearch_shape {lit m t : List Char} (h : coordSearch lit m = some t) :
    t ≠ [] ∧ (Coordinate.from_str t).isOk = true := by
  refine reSearch_some (fun s =>
    match litMatch lit s with
    | some rest => takeCoordE rest
    | none => none)
    (fun t => t ≠ [] ∧ (Coordinate.from_str t).isOk = true) ?_ m t h
  intro s x hx
  dsimp only at hx
  cases hl : litMatch lit s with
  | none => rw [hl] at hx; simp at hx
  | some rest => rw [hl] at hx; exact takeCoordE_spec hx

theorem extract_stamp_spec (dlit tlit m : List Char) :
    (stampBad dlit tlit m = true ∧
      ∃ e, extract_stamp dlit tlit m = Except.error e) ∨
    (stampBad dlit tlit m = false ∧
      ∃ o, extract_stamp dlit tlit m = Except.ok o) := by
  unfold extract_stamp stampBad
  cases h1 : reSearch (digitsAfter dlit 6) m with
  | none => exact Or.inr ⟨rfl, none, rfl⟩
  | some ds =>
    cases h2 : reSearch (digitsAfter tlit 4) m with
    | none => exact Or.inr ⟨rfl, none, rfl⟩
    | some ts =>
      by_cases hv : validDatetime (2000 + decDigits (ds.take 2))
          (decDigits ((ds.drop 2).take 2)) (decDigits (ds.drop 4))
          (decDigits (ts.take 2)) (decDigits (ts.drop 2)) = true
      · refine Or.inr ⟨by simp [hv], ?_⟩
        simp only [datetimeMk, hv, if_pos]
        exact ⟨_, rfl⟩
      · have hv' : validDatetime (2000 + decDigits (ds.take 2))
            (decDigits ((ds.drop 2).take 2)) (decDigits (ds.drop 4))
            (decDigits (ts.take 2)) (decDigits (ts.drop 2)) = false :=
          Bool.not_eq_true _ ▸ hv
        refine Or.inl ⟨by simp [hv'], ?_⟩
        simp only [datetimeMk, hv', Bool.false_eq_true, if_false]
        exact ⟨_, rfl⟩

theorem decodeOpt_endpoint_ok {a b : Option (List Char)}
    (ha : ∀ t, a = some t → t ≠ [] ∧ (Coordinate.from_str t).isOk = true)
    (hb : ∀ t, b = some t → t ≠ [] ∧ (Coordinate.from_str t).isOk = true) :
    ∃ o, decodeOpt (pyOrStr a b) = Except.ok o := by
  have key : ∀ t, pyOrStr a b = some t → (Coordinate.from_str t).isOk = true := by
    intro t ht
    cases a with
    | none => exact (hb t ht).2
    | some l =>
      obtain ⟨hne, hok⟩ := ha l rfl
      simp only [pyOrStr, if_neg hne] at ht
      simp only [Option.some.injEq] at ht
      exact ht ▸ hok
  cases hp : pyOrStr a b with
  | none => exact ⟨none, rfl⟩
  | some t =>
    obtain ⟨c, hc⟩ := from_str_ok_exists (key t hp)
    exact ⟨some c, by simp [decodeOpt, hc, Except.map]⟩

theorem depCoordsOf_shape {dep_msg : Option (List Char)} {t : List Char}
    (h : depCoordsOf dep_msg = some t) :
    t ≠ [] ∧ (Coordinate.from_str t).isOk = true := by
  unfold depCoordsOf at h
  split_ifs at h
  exact coordSearch_shape h

theorem arrCoordsOf_shape {arr_msg : Option (List Char)} {t : List Char}
    (h : arrCoordsOf arr_msg = some t) :
    t ≠ [] ∧ (Coordinate.from_str t).isOk = true := by
  unfold arrCoordsOf at h
  split_ifs at h
  exact coordSearch_shape h

theorem shr_dep_shape {shr t : List Char}
    (h : extract_departure_coordinates shr = some t) :
    t ≠ [] ∧ (Coordinate.from_str t).isOk = true := coordSearch_shape h

theorem shr_arr_shape {shr t : List Char}
    (h : extract_arrival_coordinates shr = some t) :
    t ≠ [] ∧ (Coordinate.from_str t).isOk = true := coordSearch_shape h

theorem depDateOf_spec (dep_msg : Option (List Char)) :
    (depTimestampErr dep_msg = true ∧ ∃ e, depDateOf dep_msg = Except.error e) ∨
    (depTimestampErr dep_msg = false ∧ ∃ o, depDateOf dep_msg = Except.ok o) := by
  by_cases ht : truthy dep_msg = true
  · rcases extract_stamp_spec "-ADD ".toList "-ATD ".toList (dep_msg.getD [])
      with ⟨hb, e, he⟩ | ⟨hb, o, ho⟩
    · refine Or.inl ⟨?_, e, ?_⟩
      · unfold depTimestampErr depStampBad
        rw [ht, hb]
        rfl
      · unfold depDateOf
        rw [if_pos ht]
        exact he
    · refine Or.inr ⟨?_, o, ?_⟩
      · unfold depTimestampErr depStampBad
        rw [ht, hb]
        rfl
      · unfold depDateOf
        rw [if_pos ht]
        exact ho
  · have ht' : truthy dep_msg = false := Bool.not_eq_true _ ▸ ht
    refine Or.inr ⟨?_, none, ?_⟩
    · unfold depTimestampErr
      rw [ht']
      rfl
    · unfold depDateOf
      rw [if_neg ht]

theorem arrDateOf_spec (arr_msg : Option (List Char)) :
    (arrTimestampErr arr_msg = true ∧ ∃ e, arrDateOf arr_msg = Except.error e) ∨
    (arrTimestampErr arr_msg = false ∧ ∃ o, arrDateOf arr_msg = Except.ok o) := by
  by_cases ht : truthy arr_msg = true
  · rcases extract_stamp_spec "-ADA ".toList "-ATA ".toList (arr_msg.getD [])
      with ⟨hb, e, he⟩ | ⟨hb, o, ho⟩
    · refine Or.inl ⟨?_, e, ?_⟩
      · unfold arrTimestampErr arrStampBad
        rw [ht, hb]
        rfl
      · unfold arrDateOf
        rw [if_pos ht]
        exact he
    · refine Or.inr ⟨?_, o, ?_⟩
      · unfold arrTimestampErr arrStampBad
        rw [ht, hb]
        rfl
      · unfold arrDateOf
        rw [if_pos ht]
        exact ho
  · have ht' : truthy arr_msg = false := Bool.not_eq_true _ ▸ ht
    refine Or.inr ⟨?_, none, ?_⟩
    · unfold arrTimestampErr
      rw [ht']
      rfl
    · unfold arrDateOf
      rw [if_neg ht]

theorem parse_err_zone {shr : List Char} {dep_msg arr_msg : Option (List Char)}
    {e : PyErr} (h : extract_zone shr = Except.error e) :
    parse_flight_info shr dep_msg arr_msg = Except.error e := by
  simp only [parse_flight_info, h, error_bind]

theorem parse_err_dep {shr : List Char} {dep_msg arr_msg : Option (List Char)}
    {zo : Option Zone} {e : PyErr} (hz : extract_zone shr = Except.ok zo)
    (hd : depDateOf dep_msg = Except.error e) :
    parse_flight_info shr dep_msg arr_msg = Except.error e := by
  simp only [parse_flight_info, hz, ok_bind, hd, error_bind]

theorem parse_err_arr {shr : List Char} {dep_msg arr_msg : Option (List Char)}
    {zo : Option Zone} {depD : Option Datetime} {e : PyErr}
    (hz : extract_zone shr = Except.ok zo)
    (hd : depDateOf dep_msg = Except.ok depD)
    (ha : arrDateOf arr_msg = Except.error e) :
    parse_flight_info shr dep_msg arr_msg = Except.error e := by
  simp only [parse_flight_info, hz, ok_bind, hd, ha, error_bind]

theorem parse_ok_build {shr : List Char} {dep_msg arr_msg : Option (List Char)}
    {zo : Option Zone} {depD arrD : Option Datetime}
    {dc ac : Option Coordinate}
    (hz : extract_zone shr = Except.ok zo)
    (hd : depDateOf dep_msg = Except.ok depD)
    (ha : arrDateOf arr_msg = Except.ok arrD)
    (hdc : decodeOpt (pyOrStr (depCoordsOf dep_msg)
      (extract_departure_coordinates shr)) = Except.ok dc)
    (hac : decodeOpt (pyOrStr (arrCoordsOf arr_msg)
      (extract_arrival_coordinates shr)) = Except.ok ac) :
    parse_flight_info shr dep_msg arr_msg = Except.ok
      { bpla_id := extract_bpla_id shr
        bpla_type := extract_bpla_type shr
        departure := { coordinate := dc, date := depD }
        arrival := { coordinate := ac, date := arrD }
        duration := durationOf depD arrD
        zone := zo } := by
  simp only [parse_flight_info, hz, ok_bind, hd, ha, hdc, hac]

/-- Success characterisation of the assembler: a produced record is
exactly the tuple of the stage results. -/
theorem parse_ok_spec {shr : List Char} {dep_msg arr_msg : Option (List Char)}
    {fi : FlightInfo} (h : parse_flight_info shr dep_msg arr_msg = Except.ok fi) :
    extract_zone shr = Except.ok fi.zone ∧
    depDateOf dep_msg = Except.ok fi.departure.date ∧
    arrDateOf arr_msg = Except.ok fi.arrival.date ∧
    decodeOpt (pyOrStr (depCoordsOf dep_msg)
      (extract_departure_coordinates shr)) = Except.ok fi.departure.coordinate ∧
    decodeOpt (pyOrStr (arrCoordsOf arr_msg)
      (extract_arrival_coordinates shr)) = Except.ok fi.arrival.coordinate ∧
    fi.bpla_id = extract_bpla_id shr ∧
    fi.bpla_type = extract_bpla_type shr ∧
    fi.duration = durationOf fi.departure.date fi.arrival.date := by
  cases hz : extract_zone shr with
  | error e => rw [parse_err_zone hz] at h; exact absurd h (by simp)
  | ok zo =>
  cases hd : depDateOf dep_msg with
  | error e => rw [parse_err_dep hz hd] at h; exact absurd h (by simp)
  | ok depD =>
  cases ha : arrDateOf arr_msg with
  | error e => rw [parse_err_arr hz hd ha] at h; exact absurd h (by simp)
  | ok arrD =>
  cases hdc : decodeOpt (pyOrStr (depCoordsOf dep_msg)
      (extract_departure_coordinates shr)) with
  | error e =>
    rw [show parse_flight_info shr dep_msg arr_msg = Except.error e by
      simp only [parse_flight_info, hz, ok_bind, hd, ha, hdc, error_bind]] at h
    exact absurd h (by simp)
  | ok dc =>
  cases hac : decodeOpt (pyOrStr (arrCoordsOf arr_msg)
      (extract_arrival_coordinates shr)) with
  | error e =>
    rw [show parse_flight_info shr dep_msg arr_msg = Except.error e by
      simp only [parse_flight_info, hz, ok_bind, hd, ha, hdc, hac, error_bind]] at h
    exact absurd h (by simp)
  | ok ac =>
    rw [parse_ok_build hz hd ha hdc hac] at h
    simp only [Except.ok.injEq] at h
    subst h
    exact ⟨rfl, rfl, rfl, rfl, rfl, rfl, rfl, rfl⟩

/-- Failure characterisation of the assembler. -/
theorem parse_isOk_eq (shr : List Char) (dep_msg arr_msg : Option (List Char)) :
    (parse_flight_info shr dep_msg arr_msg).isOk =
      (!zoneAmbiguity shr && !depTimestampErr dep_msg &&
        !arrTimestampErr arr_msg) := by
  rcases extract_zone_spec shr with ⟨hamb, herr⟩ | ⟨hamb, zo, hz, _⟩
  · rw [parse_err_zone herr, hamb]
    rfl
  · rcases depDateOf_spec dep_msg with ⟨hdb, e, hde⟩ | ⟨hdb, depD, hd⟩
    · rw [parse_err_dep hz hde, hamb, hdb]
      rfl
    · rcases arrDateOf_spec arr_msg with ⟨hab, e, hae⟩ | ⟨hab, arrD, ha⟩
      · rw [parse_err_arr hz hd hae, hamb, hdb, hab]
        rfl
      · obtain ⟨dc, hdc⟩ := decodeOpt_endpoint_ok
          (fun t ht => depCoordsOf_shape ht) (fun t ht => shr_dep_shape ht)
        obtain ⟨ac, hac⟩ := decodeOpt_endpoint_ok
          (fun t ht => arrCoordsOf_shape ht) (fun t ht => shr_arr_shape ht)
        rw [parse_ok_build hz hd ha hdc hac, hamb, hdb, hab]
        rfl

instance exceptDecEq {ε α : Type} [DecidableEq ε] [DecidableEq α] :
    DecidableEq (Except ε α) := fun x y =>
  match x, y with
  | Except.ok a, Except.ok b =>
    if h : a = b then Decidable.isTrue (h ▸ rfl)
    else Decidable.isFalse fun hc => h (Except.ok.inj hc)
  | Except.error a, Except.error b =>
    if h : a = b then Decidable.isTrue (h ▸ rfl)
    else Decidable.isFalse fun hc => h (Except.error.inj hc)
  | Except.ok _, Except.error _ => Decidable.isFalse fun hc => Except.noConfusion hc
  | Except.error _, Except.ok _ => Decidable.isFalse fun hc => Except.noConfusion hc

/-! ## Claim C1 -/

/-- C1 (counterexample): a shorthand message with two distinct `-K` lines
and a `/ZONA` field that yields a zone is extracted successfully — the
multiple `-K` lines do not fail extraction when the `/ZONA` branch
produces a zone, contradicting "regardless of whether a /ZONA field is
also present". -/
theorem c1_counterexample :
    kLines "-K1 2\n-K3\n/ZONA WR1825/".toList =
      ["-K1 2".toList, "-K3".toList] ∧
    "-K1 2".toList ≠ "-K3".toList ∧
    (parse_flight_info "-K1 2\n-K3\n/ZONA WR1825/".toList none none).isOk
      = true := by decide

/-- C1 (amended): whenever the `/ZONA` branch yields no zone — in
particular whenever the marker is absent — a shorthand message with more
than one `-K` line makes extraction of the whole record fail with the
`ValueError` for multiple `-K` lines, for any departure/arrival messages;
when the `/ZONA` branch yields a zone the `-K` lines are never examined. -/
theorem c1_k_ambiguity (shr : List Char) (dep_msg arr_msg : Option (List Char))
    (hz : zonaYieldsZone shr = false) (hk : 1 < (kLines shr).length) :
    parse_flight_info shr dep_msg arr_msg =
      Except.error (PyErr.valueError "Multiple -K lines found in SHR message") := by
  have hamb : zoneAmbiguity shr = true := by
    simp [zoneAmbiguity, hz, hk]
  rcases extract_zone_spec shr with ⟨_, herr⟩ | ⟨hfalse, _⟩
  · exact parse_err_zone herr
  · rw [hamb] at hfalse
    exact absurd hfalse (by simp)

/-- C1 (witness). -/
theorem c1_k_ambiguity_witness :
    parse_flight_info "-K1 2\n-K3".toList none none =
      Except.error (PyErr.valueError "Multiple -K lines found in SHR message") :=
  c1_k_ambiguity "-K1 2\n-K3".toList none none (by decide) (by decide)

/-! ## Claim C2 -/

/-- C2 (counterexample): a record whose departure and arrival timestamps
are both present and equal gets `duration = null` in the emitted record —
the zero difference is not passed through, because the serialiser tests
the timedelta for truthiness. -/
theorem c2_counterexample :
    (parse_flight_info "x".toList (some "-ADD 250101\n-ATD 0500".toList)
        (some "-ADA 250101\n-ATA 0500".toList)).map
      (fun fi => (fi.to_json_dict.duration, fi.departure.date.isSome,
        fi.arrival.date.isSome)) =
    Except.ok (none, true, true) := by decide

/-- C2 (amended): in the emitted record the duration field equals the
signed difference (arrival − departure, in seconds) whenever both
timestamps are present and the difference is non-zero (negative values
pass through unclamped); it is null whenever either timestamp is absent,
and also when the difference is exactly zero. -/
theorem c2_duration (shr : List Char) (dep_msg arr_msg : Option (List Char))
    (fi : FlightInfo) (h : parse_flight_info shr dep_msg arr_msg = Except.ok fi) :
    depDateOf dep_msg = Except.ok fi.departure.date ∧
    arrDateOf arr_msg = Except.ok fi.arrival.date ∧
    fi.to_json_dict.duration =
      match fi.departure.date, fi.arrival.date with
      | some d, some a => if dtSub a d = 0 then none else some (dtSub a d)
      | _, _ => none := by
  obtain ⟨-, hdd, had, -, -, -, -, hdur⟩ := parse_ok_spec h
  refine ⟨hdd, had, ?_⟩
  simp only [FlightInfo.to_json_dict, hdur, durationOf]
  cases fi.departure.date <;> cases fi.arrival.date <;> simp

/-- C2 (witness). -/
theorem c2_duration_witness :
    depDateOf (some "-ADD 250101\n-ATD 0000".toList) =
      Except.ok (some ⟨2025, 1, 1, 0, 0⟩) ∧
    arrDateOf (some "-ADA 250101\n-ATA 0001".toList) =
      Except.ok (some ⟨2025, 1, 1, 0, 1⟩) ∧
    ((⟨none, "BLA".toList, ⟨none, some ⟨2025, 1, 1, 0, 0⟩⟩,
        ⟨none, some ⟨2025, 1, 1, 0, 1⟩⟩, some 60, none⟩ :
      FlightInfo)).to_json_dict.duration =
      match (some (⟨2025, 1, 1, 0, 0⟩ : Datetime) : Option Datetime),
        (some (⟨2025, 1, 1, 0, 1⟩ : Datetime) : Option Datetime) with
      | some d, some a => if dtSub a d = 0 then none else some (dtSub a d)
      | _, _ => none :=
  c2_duration "x".toList (some "-ADD 250101\n-ATD 0000".toList)
    (some "-ADA 250101\n-ATA 0001".toList)
    ⟨none, "BLA".toList, ⟨none, some ⟨2025, 1, 1, 0, 0⟩⟩,
      ⟨none, some ⟨2025, 1, 1, 0, 1⟩⟩, some 60, none⟩ (by decide)

/-! ## Claim C3 -/

/-- C3 (counterexample): with an empty shorthand message (no `-K` line, no
`/ZONA` marker, no geo-token consumed anywhere) and a departure message
carrying the complete pair `-ADD 250001` / `-ATD 0000` (month 00),
extraction raises — an error outside the two causes the claim allows. -/
theorem c3_counterexample :
    (parse_flight_info "x".toList (some "-ADD 250001\n-ATD 0000".toList)
      none).isOk = false ∧
    (kLines "x".toList).length = 0 ∧
    zonaCapture "x".toList = none ∧
    extract_departure_coordinates "x".toList = none ∧
    extract_arrival_coordinates "x".toList = none ∧
    depCoordsOf (some "-ADD 250001\n-ATD 0000".toList) = none ∧
    arrCoordsOf none = none := by decide

/-- C3 (amended): extraction of a record raises a fatal error if and only
if the `/ZONA` branch yields no zone while more than one `-K` line exists,
or a departure/arrival message carries a complete date/time marker pair
whose digit groups are out of calendar or clock range.  A consumed
geo-token never fails to decode (the decoder's failure branch is
unreachable in the pipeline), and every other degenerate input resolves to
"no value" without an error. -/
theorem c3_error_characterisation (shr : List Char)
    (dep_msg arr_msg : Option (List Char)) :
    (parse_flight_info shr dep_msg arr_msg).isOk =
      (!zoneAmbiguity shr && !depTimestampErr dep_msg &&
        !arrTimestampErr arr_msg) :=
  parse_isOk_eq shr dep_msg arr_msg

/-! ## Claim C9 -/

/-- C9: every zone produced by zone resolution satisfies the
one-variant-populated invariant, with a `Path` zone always non-empty;
the absence of a zone is `none`. -/
theorem c9_zone_invariant (shr : List Char) (z : Zone)
    (h : extract_zone shr = Except.ok (some z)) : ZoneInv z := by
  rcases extract_zone_spec shr with ⟨_, herr⟩ | ⟨_, o, hok, hinv⟩
  · rw [herr] at h
    exact absurd h (by simp)
  · rw [hok] at h
    simp only [Except.ok.injEq] at h
    exact hinv z h

/-- C9 (witness). -/
theorem c9_zone_invariant_witness :
    ZoneInv ⟨ZoneType.id, none, none, some "WR1825".toList, none⟩ :=
  c9_zone_invariant "/ZONA WR1825/".toList _ (by decide)

/-! ## Claim C10 -/

/-- C10: a token accepted by the coordinate-token classifier always
decodes successfully, and so does every token produced by the four
endpoint-coordinate extractors: the decoder's failure branch is
unreachable at all in-pipeline consumption sites. -/
theorem c10_decoder_total :
    (∀ t : List Char, is_coordinate_token t = true →
      (Coordinate.from_str t).isOk = true) ∧
    (∀ m t : List Char, extract_dep_coordinates m = some t →
      (Coordinate.from_str t).isOk = true) ∧
    (∀ m t : List Char, extract_arr_coordinates m = some t →
      (Coordinate.from_str t).isOk = true) ∧
    (∀ m t : List Char, extract_departure_coordinates m = some t →
      (Coordinate.from_str t).isOk = true) ∧
    (∀ m t : List Char, extract_arrival_coordinates m = some t →
      (Coordinate.from_str t).isOk = true) :=
  ⟨fun _ h => is_coordinate_token_from_str h,
   fun _ _ h => (coordSearch_shape h).2,
   fun _ _ h => (coordSearch_shape h).2,
   fun _ _ h => (coordSearch_shape h).2,
   fun _ _ h => (coordSearch_shape h).2⟩

/-- C10 (witness). -/
theorem c10_decoder_total_witness :
    (Coordinate.from_str "4408N04308E".toList).isOk = true ∧
    (Coordinate.from_str "5957N02905E".toList).isOk = true :=
  ⟨c10_decoder_total.1 "4408N04308E".toList (by decide),
   c10_decoder_total.2.1 "-ADEPZ 5957N02905E".toList "5957N02905E".toList
    (by decide)⟩

theorem decodeOpt_pyOr_char {a b : Option (List Char)} {r : Option Coordinate}
    (ha : ∀ t, a = some t → t ≠ [] ∧ (Coordinate.from_str t).isOk = true)
    (h : decodeOpt (pyOrStr a b) = Except.ok r) :
    (∀ t, a = some t → r = (Coordinate.from_str t).toOption) ∧
    (a = none → ∀ t, b = some t → r = (Coordinate.from_str t).toOption) ∧
    (a = none → b = none → r = none) := by
  refine ⟨?_, ?_, ?_⟩
  · intro t hat
    obtain ⟨hne, hok⟩ := ha t hat
    obtain ⟨c, hc⟩ := from_str_ok_exists hok
    rw [hat] at h
    simp only [pyOrStr, if_neg hne] at h
    rw [decodeOpt, hc] at h
    simp only [Except.map, Except.ok.injEq] at h
    rw [← h, hc]
    rfl
  · intro han t hbt
    rw [han, hbt] at h
    simp only [pyOrStr] at h
    rw [decodeOpt] at h
    cases hc : Coordinate.from_str t with
    | ok c =>
      rw [hc] at h
      simp only [Except.map, Except.ok.injEq] at h
      rw [← h]
      rfl
    | error e =>
      rw [hc] at h
      simp only [Except.map] at h
      exact absurd h (by simp)
  · intro han hbn
    rw [han, hbn] at h
    simp only [pyOrStr, decodeOpt, Except.ok.injEq] at h
    exact h.symm

/-! ## Claim C6 -/

/-- C6: the assembled departure (arrival) coordinate is the decoded
`-ADEPZ` (`-ADARRZ`) token whenever the dedicated message yields one; the
decoded shorthand `DEP/` (`DEST/`) token only when the dedicated source
yields none; and `none` when neither source yields a token. -/
theorem c6_precedence (shr : List Char) (dep_msg arr_msg : Option (List Char))
    (fi : FlightInfo) (h : parse_flight_info shr dep_msg arr_msg = Except.ok fi) :
    ((∀ t, depCoordsOf dep_msg = some t →
        fi.departure.coordinate = (Coordinate.from_str t).toOption) ∧
      (depCoordsOf dep_msg = none →
        ∀ t, extract_departure_coordinates shr = some t →
          fi.departure.coordinate = (Coordinate.from_str t).toOption) ∧
      (depCoordsOf dep_msg = none → extract_departure_coordinates shr = none →
        fi.departure.coordinate = none)) ∧
    ((∀ t, arrCoordsOf arr_msg = some t →
        fi.arrival.coordinate = (Coordinate.from_str t).toOption) ∧
      (arrCoordsOf arr_msg = none →
        ∀ t, extract_arrival_coordinates shr = some t →
          fi.arrival.coordinate = (Coordinate.from_str t).toOption) ∧
      (arrCoordsOf arr_msg = none → extract_arrival_coordinates shr = none →
        fi.arrival.coordinate = none)) := by
  obtain ⟨-, -, -, hdc, hac, -, -, -⟩ := parse_ok_spec h
  exact ⟨decodeOpt_pyOr_char (fun t ht => depCoordsOf_shape ht) hdc,
    decodeOpt_pyOr_char (fun t ht => arrCoordsOf_shape ht) hac⟩

/-- C6 (witness): the spec's own precedence example — `-ADEPZ 5957N02905E`
beats `DEP/4408N04308E` (59°57'N 029°05'E = 1199/20, 349/12). -/
theorem c6_precedence_witness :
    ((⟨none, "BLA".toList,
        ⟨some ⟨((10 * dv '5' + dv '9' : ℕ) : ℚ) + ((10 * dv '5' + dv '7' : ℕ) : ℚ) / 60,
               ((100 * dv '0' + 10 * dv '2' + dv '9' : ℕ) : ℚ) +
                 ((10 * dv '0' + dv '5' : ℕ) : ℚ) / 60⟩, none⟩,
        ⟨some ⟨((10 * dv '4' + dv '4' : ℕ) : ℚ) + ((10 * dv '0' + dv '8' : ℕ) : ℚ) / 60,
               ((100 * dv '0' + 10 * dv '4' + dv '3' : ℕ) : ℚ) +
                 ((10 * dv '0' + dv '8' : ℕ) : ℚ) / 60⟩, none⟩,
        none, none⟩ :
      FlightInfo)).departure.coordinate =
      (Coordinate.from_str "5957N02905E".toList).toOption :=
  ((c6_precedence "DEP/4408N04308E DEST/4408N04308E".toList
      (some "-ADEPZ 5957N02905E".toList) none _ (by rfl)).1).1
    "5957N02905E".toList (by decide)

/-! ## Claim C4 -/

/-- C4: the coordinate decoder succeeds exactly on 11-character tokens of
shape `DD MM [NS] DDD MM [EW]` (all ASCII digits), and on success returns
latitude `degrees + minutes/60` (negated for `S`) and longitude
`degrees + minutes/60` (negated for `W`). -/
theorem c4_codec_spec :
    (∀ t : List Char, (Coordinate.from_str t).isOk = true ↔
      ∃ a1 a2 b1 b2 h1 c1 c2 c3 d1 d2 h2,
        t = [a1, a2, b1, b2, h1, c1, c2, c3, d1, d2, h2] ∧
        isPyDigit a1 = true ∧ isPyDigit a2 = true ∧
        isPyDigit b1 = true ∧ isPyDigit b2 = true ∧
        isPyDigit c1 = true ∧ isPyDigit c2 = true ∧ isPyDigit c3 = true ∧
        isPyDigit d1 = true ∧ isPyDigit d2 = true ∧
        (h1 = 'N' ∨ h1 = 'S') ∧ (h2 = 'E' ∨ h2 = 'W')) ∧
    (∀ a1 a2 b1 b2 h1 c1 c2 c3 d1 d2 h2 : Char,
      isPyDigit a1 = true → isPyDigit a2 = true →
      isPyDigit b1 = true → isPyDigit b2 = true →
      isPyDigit c1 = true → isPyDigit c2 = true → isPyDigit c3 = true →
      isPyDigit d1 = true → isPyDigit d2 = true →
      (h1 = 'N' ∨ h1 = 'S') → (h2 = 'E' ∨ h2 = 'W') →
      Coordinate.from_str [a1, a2, b1, b2, h1, c1, c2, c3, d1, d2, h2] =
        Except.ok
          { latitude := (if h1 = 'S' then (-1 : ℚ) else 1) *
              (((10 * dv a1 + dv a2 : ℕ) : ℚ) +
                ((10 * dv b1 + dv b2 : ℕ) : ℚ) / 60)
            longitude := (if h2 = 'W' then (-1 : ℚ) else 1) *
              (((100 * dv c1 + 10 * dv c2 + dv c3 : ℕ) : ℚ) +
                ((10 * dv d1 + dv d2 : ℕ) : ℚ) / 60) }) := by
  constructor
  · intro t
    constructor
    · intro hok
      rcases t with _ | ⟨a1, t⟩; · simp [Coordinate.from_str, Except.isOk, Except.toBool] at hok
      rcases t with _ | ⟨a2, t⟩; · simp [Coordinate.from_str, Except.isOk, Except.toBool] at hok
      rcases t with _ | ⟨b1, t⟩; · simp [Coordinate.from_str, Except.isOk, Except.toBool] at hok
      rcases t with _ | ⟨b2, t⟩; · simp [Coordinate.from_str, Except.isOk, Except.toBool] at hok
      rcases t with _ | ⟨h1, t⟩; · simp [Coordinate.from_str, Except.isOk, Except.toBool] at hok
      rcases t with _ | ⟨c1, t⟩; · simp [Coordinate.from_str, Except.isOk, Except.toBool] at hok
      rcases t with _ | ⟨c2, t⟩; · simp [Coordinate.from_str, Except.isOk, Except.toBool] at hok
      rcases t with _ | ⟨c3, t⟩; · simp [Coordinate.from_str, Except.isOk, Except.toBool] at hok
      rcases t with _ | ⟨d1, t⟩; · simp [Coordinate.from_str, Except.isOk, Except.toBool] at hok
      rcases t with _ | ⟨d2, t⟩; · simp [Coordinate.from_str, Except.isOk, Except.toBool] at hok
      rcases t with _ | ⟨h2, t⟩; · simp [Coordinate.from_str, Except.isOk, Except.toBool] at hok
      rcases t with _ | ⟨x, t⟩
      · simp only [Coordinate.from_str] at hok
        rw [apply_ite Except.isOk] at hok
        simp [Except.isOk, Except.toBool] at hok
        refine ⟨a1, a2, b1, b2, h1, c1, c2, c3, d1, d2, h2, rfl,
          ?_, ?_, ?_, ?_, ?_, ?_, ?_, ?_, ?_, ?_, ?_⟩ <;> tauto
      · simp [Coordinate.from_str, Except.isOk, Except.toBool] at hok
    · rintro ⟨a1, a2, b1, b2, h1, c1, c2, c3, d1, d2, h2, rfl,
        p1, p2, p3, p4, p6, p7, p8, p9, p10, p5, p11⟩
      rcases p5 with h5 | h5 <;> rcases p11 with h11 | h11 <;>
        subst h5 <;> subst h11 <;>
        simp [Coordinate.from_str, p1, p2, p3, p4, p6, p7, p8, p9, p10,
          Except.isOk, Except.toBool]
  · intro a1 a2 b1 b2 h1 c1 c2 c3 d1 d2 h2 p1 p2 p3 p4 p6 p7 p8 p9 p10 p5 p11
    rcases p5 with h5 | h5 <;> rcases p11 with h11 | h11 <;>
      subst h5 <;> subst h11 <;>
      simp [Coordinate.from_str, p1, p2, p3, p4, p6, p7, p8, p9, p10,
        Coordinate.mk.injEq]

/-- C4 (witness): the token `5957N02905E`. -/
theorem c4_codec_spec_witness :
    Coordinate.from_str "5957N02905E".toList =
      Except.ok
        { latitude := (if ('N' : Char) = 'S' then (-1 : ℚ) else 1) *
            (((10 * dv '5' + dv '9' : ℕ) : ℚ) +
              ((10 * dv '5' + dv '7' : ℕ) : ℚ) / 60)
          longitude := (if ('E' : Char) = 'W' then (-1 : ℚ) else 1) *
            (((100 * dv '0' + 10 * dv '2' + dv '9' : ℕ) : ℚ) +
              ((10 * dv '0' + dv '5' : ℕ) : ℚ) / 60) } :=
  c4_codec_spec.2 '5' '9' '5' '7' 'N' '0' '2' '9' '0' '5' 'E'
    (by decide) (by decide) (by decide) (by decide) (by decide) (by decide)
    (by decide) (by decide) (by decide) (Or.inl rfl) (Or.inl rfl)

/-! ## Claim C5 -/

theorem dv_lt_ten {c : Char} (h : isPyDigit c = true) : dv c < 10 := by
  simp only [isPyDigit, Bool.and_eq_true, decide_eq_true_eq] at h
  unfold dv
  omega

theorem digitChar_dv {c : Char} (h : isPyDigit c = true) : digitChar (dv c) = c := by
  simp only [isPyDigit, Bool.and_eq_true, decide_eq_true_eq] at h
  unfold digitChar dv
  rw [show 48 + (c.toNat - 48) = c.toNat by omega]
  exact Char.ofNat_toNat c

theorem twoDigits_eq {x y : Char} (hx : isPyDigit x = true)
    (hy : isPyDigit y = true) : twoDigits (10 * dv x + dv y) = [x, y] := by
  have hx10 := dv_lt_ten hx
  have hy10 := dv_lt_ten hy
  unfold twoDigits
  rw [show (10 * dv x + dv y) / 10 % 10 = dv x by omega,
    show (10 * dv x + dv y) % 10 = dv y by omega,
    digitChar_dv hx, digitChar_dv hy]

theorem threeDigits_eq {x y z : Char} (hx : isPyDigit x = true)
    (hy : isPyDigit y = true) (hz : isPyDigit z = true) :
    threeDigits (100 * dv x + 10 * dv y + dv z) = [x, y, z] := by
  have hx10 := dv_lt_ten hx
  have hy10 := dv_lt_ten hy
  have hz10 := dv_lt_ten hz
  unfold threeDigits
  rw [show (100 * dv x + 10 * dv y + dv z) / 100 % 10 = dv x by omega,
    show (100 * dv x + 10 * dv y + dv z) / 10 % 10 = 10 * dv x + dv y - 10 * ((10 * dv x + dv y) / 10) from by omega]
  rw [show (100 * dv x + 10 * dv y + dv z) % 10 = dv z by omega]
  rw [show 10 * dv x + dv y - 10 * ((10 * dv x + dv y) / 10) = dv y by omega]
  rw [digitChar_dv hx, digitChar_dv hy, digitChar_dv hz]

theorem round_minutes (D M : ℕ) :
    (round ((((D : ℚ) + (M : ℚ) / 60)) * 60)).toNat = 60 * D + M := by
  have h : (((D : ℚ) + (M : ℚ) / 60)) * 60 = ((60 * D + M : ℕ) : ℚ) := by
    push_cast
    ring
  rw [h, round_natCast, Int.toNat_natCast]

/-- One endpoint of the round-trip computation: for `q = D + M/60` with
`M < 60`, re-encoding the minutes yields the original digit groups. -/
theorem encode_halves {D M : ℕ} (hM : M < 60) :
    (round (((D : ℚ) + (M : ℚ) / 60) * 60)).toNat / 60 = D ∧
    (round (((D : ℚ) + (M : ℚ) / 60) * 60)).toNat % 60 = M := by
  rw [round_minutes D M]
  omega

/-- C5 (counterexample): the valid tokens `0099N00099E` and `0139N00139E`
are distinct but decode to the same coordinate (0°99' = 1°39'), so no
re-encoding can reproduce both; the spec-modelled encoder indeed returns
`0139N00139E` for the decoded value of `0099N00099E`. -/
theorem c5_counterexample :
    Coordinate.from_str "0099N00099E".toList =
      Coordinate.from_str "0139N00139E".toList ∧
    "0099N00099E".toList ≠ "0139N00139E".toList ∧
    Coordinate.from_str "0099N00099E".toList =
      Except.ok ⟨33/20, 33/20⟩ ∧
    encodeCoord ⟨33/20, 33/20⟩ ≠ "0099N00099E".toList := by
  have d0 : dv '0' = 0 := rfl
  have d1 : dv '1' = 1 := rfl
  have d3 : dv '3' = 3 := rfl
  have d9 : dv '9' = 9 := rfl
  have e1 : Coordinate.from_str "0099N00099E".toList =
      Except.ok ⟨((10 * dv '0' + dv '0' : ℕ) : ℚ) +
          ((10 * dv '9' + dv '9' : ℕ) : ℚ) / 60,
        ((100 * dv '0' + 10 * dv '0' + dv '0' : ℕ) : ℚ) +
          ((10 * dv '9' + dv '9' : ℕ) : ℚ) / 60⟩ := rfl
  have e2 : Coordinate.from_str "0139N00139E".toList =
      Except.ok ⟨((10 * dv '0' + dv '1' : ℕ) : ℚ) +
          ((10 * dv '3' + dv '9' : ℕ) : ℚ) / 60,
        ((100 * dv '0' + 10 * dv '0' + dv '1' : ℕ) : ℚ) +
          ((10 * dv '3' + dv '9' : ℕ) : ℚ) / 60⟩ := rfl
  have hv : Coordinate.from_str "0099N00099E".toList =
      Except.ok ⟨33/20, 33/20⟩ := by
    rw [e1]
    simp only [Except.ok.injEq, Coordinate.mk.injEq, d0, d9]
    norm_num
  refine ⟨?_, by decide, hv, ?_⟩
  · rw [e1, e2]
    simp only [Except.ok.injEq, Coordinate.mk.injEq, d0, d1, d3, d9]
    norm_num
  · have habs : |(33 / 20 : ℚ)| * 60 = ((99 : ℕ) : ℚ) := by
      rw [abs_of_nonneg (by norm_num : (0 : ℚ) ≤ 33 / 20)]
      norm_num
    have hlt : ¬(33 / 20 : ℚ) < 0 := by norm_num
    simp only [encodeCoord, habs, round_natCast, Int.toNat_natCast,
      if_neg hlt]
    decide

/-- Positivity of a degree-minute value with a non-zero digit sum. -/
theorem dm_pos {D M : ℕ} (h : 0 < D + M) :
    (0 : ℚ) < (D : ℚ) + (M : ℚ) / 60 := by
  have h1 : ((D : ℚ) + (M : ℚ) / 60) = ((60 * D + M : ℕ) : ℚ) / 60 := by
    push_cast
    ring
  rw [h1]
  have h2 : (0 : ℚ) < ((60 * D + M : ℕ) : ℚ) := by
    exact_mod_cast (by omega : 0 < 60 * D + M)
  positivity

/-- C5 (amended): for every valid 11-character geo-token whose two minute
fields are below 60 and whose hemisphere letter is not `S` (resp. `W`)
with an all-zero value, decoding then re-encoding (rounding back to whole
minutes, restoring the hemisphere letters from the signs) reproduces the
token exactly. -/
theorem c5_round_trip (a1 a2 b1 b2 h1 c1 c2 c3 d1 d2 h2 : Char)
    (c : Coordinate)
    (p1 : isPyDigit a1 = true) (p2 : isPyDigit a2 = true)
    (p3 : isPyDigit b1 = true) (p4 : isPyDigit b2 = true)
    (p6 : isPyDigit c1 = true) (p7 : isPyDigit c2 = true)
    (p8 : isPyDigit c3 = true)
    (p9 : isPyDigit d1 = true) (p10 : isPyDigit d2 = true)
    (p5 : h1 = 'N' ∨ h1 = 'S') (p11 : h2 = 'E' ∨ h2 = 'W')
    (hmin1 : 10 * dv b1 + dv b2 < 60) (hmin2 : 10 * dv d1 + dv d2 < 60)
    (hz1 : h1 = 'S' → 0 < 10 * dv a1 + dv a2 + (10 * dv b1 + dv b2))
    (hz2 : h2 = 'W' →
      0 < 100 * dv c1 + 10 * dv c2 + dv c3 + (10 * dv d1 + dv d2))
    (hdec : Coordinate.from_str [a1, a2, b1, b2, h1, c1, c2, c3, d1, d2, h2] =
      Except.ok c) :
    encodeCoord c = [a1, a2, b1, b2, h1, c1, c2, c3, d1, d2, h2] := by
  have hlat0 : (0 : ℚ) ≤ ((10 * dv a1 + dv a2 : ℕ) : ℚ) +
      ((10 * dv b1 + dv b2 : ℕ) : ℚ) / 60 := by positivity
  have hlon0 : (0 : ℚ) ≤ ((100 * dv c1 + 10 * dv c2 + dv c3 : ℕ) : ℚ) +
      ((10 * dv d1 + dv d2 : ℕ) : ℚ) / 60 := by positivity
  rcases p5 with h5 | h5 <;> rcases p11 with h11 | h11 <;>
    subst h5 <;> subst h11
  · have heval : Coordinate.from_str [a1, a2, b1, b2, 'N', c1, c2, c3, d1, d2, 'E'] =
        Except.ok ⟨((10 * dv a1 + dv a2 : ℕ) : ℚ) +
            ((10 * dv b1 + dv b2 : ℕ) : ℚ) / 60,
          ((100 * dv c1 + 10 * dv c2 + dv c3 : ℕ) : ℚ) +
            ((10 * dv d1 + dv d2 : ℕ) : ℚ) / 60⟩ := by
      simp [Coordinate.from_str, p1, p2, p3, p4, p6, p7, p8, p9, p10]
    rw [heval] at hdec
    simp only [Except.ok.injEq] at hdec
    subst hdec
    simp only [encodeCoord, abs_of_nonneg hlat0, abs_of_nonneg hlon0]
    rw [if_neg (not_lt.mpr hlat0), if_neg (not_lt.mpr hlon0)]
    rw [(encode_halves hmin1).1, (encode_halves hmin1).2,
      (encode_halves hmin2).1, (encode_halves hmin2).2]
    rw [twoDigits_eq p1 p2, twoDigits_eq p3 p4, threeDigits_eq p6 p7 p8,
      twoDigits_eq p9 p10]
    rfl
  · have hlonpos : (0 : ℚ) < ((100 * dv c1 + 10 * dv c2 + dv c3 : ℕ) : ℚ) +
        ((10 * dv d1 + dv d2 : ℕ) : ℚ) / 60 := by
      have h := hz2 rfl
      exact_mod_cast dm_pos (by omega : 0 <
        (100 * dv c1 + 10 * dv c2 + dv c3) + (10 * dv d1 + dv d2))
    have heval : Coordinate.from_str [a1, a2, b1, b2, 'N', c1, c2, c3, d1, d2, 'W'] =
        Except.ok ⟨((10 * dv a1 + dv a2 : ℕ) : ℚ) +
            ((10 * dv b1 + dv b2 : ℕ) : ℚ) / 60,
          -(((100 * dv c1 + 10 * dv c2 + dv c3 : ℕ) : ℚ) +
            ((10 * dv d1 + dv d2 : ℕ) : ℚ) / 60)⟩ := by
      simp [Coordinate.from_str, p1, p2, p3, p4, p6, p7, p8, p9, p10]
    rw [heval] at hdec
    simp only [Except.ok.injEq] at hdec
    subst hdec
    simp only [encodeCoord, abs_neg, abs_of_nonneg hlat0, abs_of_nonneg hlon0]
    rw [if_neg (not_lt.mpr hlat0), if_pos (neg_lt_zero.mpr hlonpos)]
    rw [(encode_halves hmin1).1, (encode_halves hmin1).2,
      (encode_halves hmin2).1, (encode_halves hmin2).2]
    rw [twoDigits_eq p1 p2, twoDigits_eq p3 p4, threeDigits_eq p6 p7 p8,
      twoDigits_eq p9 p10]
    rfl
  · have hlatpos : (0 : ℚ) < ((10 * dv a1 + dv a2 : ℕ) : ℚ) +
        ((10 * dv b1 + dv b2 : ℕ) : ℚ) / 60 := by
      have h := hz1 rfl
      exact_mod_cast dm_pos (by omega : 0 <
        (10 * dv a1 + dv a2) + (10 * dv b1 + dv b2))
    have heval : Coordinate.from_str [a1, a2, b1, b2, 'S', c1, c2, c3, d1, d2, 'E'] =
        Except.ok ⟨-(((10 * dv a1 + dv a2 : ℕ) : ℚ) +
            ((10 * dv b1 + dv b2 : ℕ) : ℚ) / 60),
          ((100 * dv c1 + 10 * dv c2 + dv c3 : ℕ) : ℚ) +
            ((10 * dv d1 + dv d2 : ℕ) : ℚ) / 60⟩ := by
      simp [Coordinate.from_str, p1, p2, p3, p4, p6, p7, p8, p9, p10]
    rw [heval] at hdec
    simp only [Except.ok.injEq] at hdec
    subst hdec
    simp only [encodeCoord, abs_neg, abs_of_nonneg hlat0, abs_of_nonneg hlon0]
    rw [if_pos (neg_lt_zero.mpr hlatpos), if_neg (not_lt.mpr hlon0)]
    rw [(encode_halves hmin1).1, (encode_halves hmin1).2,
      (encode_halves hmin2).1, (encode_halves hmin2).2]
    rw [twoDigits_eq p1 p2, twoDigits_eq p3 p4, threeDigits_eq p6 p7 p8,
      twoDigits_eq p9 p10]
    rfl
  · have hlatpos : (0 : ℚ) < ((10 * dv a1 + dv a2 : ℕ) : ℚ) +
        ((10 * dv b1 + dv b2 : ℕ) : ℚ) / 60 := by
      have h := hz1 rfl
      exact_mod_cast dm_pos (by omega : 0 <
        (10 * dv a1 + dv a2) + (10 * dv b1 + dv b2))
    have hlonpos : (0 : ℚ) < ((100 * dv c1 + 10 * dv c2 + dv c3 : ℕ) : ℚ) +
        ((10 * dv d1 + dv d2 : ℕ) : ℚ) / 60 := by
      have h := hz2 rfl
      exact_mod_cast dm_pos (by omega : 0 <
        (100 * dv c1 + 10 * dv c2 + dv c3) + (10 * dv d1 + dv d2))
    have heval : Coordinate.from_str [a1, a2, b1, b2, 'S', c1, c2, c3, d1, d2, 'W'] =
        Except.ok ⟨-(((10 * dv a1 + dv a2 : ℕ) : ℚ) +
            ((10 * dv b1 + dv b2 : ℕ) : ℚ) / 60),
          -(((100 * dv c1 + 10 * dv c2 + dv c3 : ℕ) : ℚ) +
            ((10 * dv d1 + dv d2 : ℕ) : ℚ) / 60)⟩ := by
      simp [Coordinate.from_str, p1, p2, p3, p4, p6, p7, p8, p9, p10]
    rw [heval] at hdec
    simp only [Except.ok.injEq] at hdec
    subst hdec
    simp only [encodeCoord, abs_neg, abs_of_nonneg hlat0, abs_of_nonneg hlon0]
    rw [if_pos (neg_lt_zero.mpr hlatpos), if_pos (neg_lt_zero.mpr hlonpos)]
    rw [(encode_halves hmin1).1, (encode_halves hmin1).2,
      (encode_halves hmin2).1, (encode_halves hmin2).2]
    rw [twoDigits_eq p1 p2, twoDigits_eq p3 p4, threeDigits_eq p6 p7 p8,
      twoDigits_eq p9 p10]
    rfl

/-- C5 (witness): the token `5957N02905E` round-trips. -/
theorem c5_round_trip_witness :
    encodeCoord ⟨((10 * dv '5' + dv '9' : ℕ) : ℚ) +
        ((10 * dv '5' + dv '7' : ℕ) : ℚ) / 60,
      ((100 * dv '0' + 10 * dv '2' + dv '9' : ℕ) : ℚ) +
        ((10 * dv '0' + dv '5' : ℕ) : ℚ) / 60⟩ =
      ['5', '9', '5', '7', 'N', '0', '2', '9', '0', '5', 'E'] :=
  c5_round_trip '5' '9' '5' '7' 'N' '0' '2' '9' '0' '5' 'E' _
    (by decide) (by decide) (by decide) (by decide) (by decide) (by decide)
    (by decide) (by decide) (by decide) (Or.inl rfl) (Or.inl rfl)
    (by decide) (by decide)
    (fun h => absurd h (by decide)) (fun h => absurd h (by decide)) rfl

/-! ## Claim C7 -/

theorem digit_ne {c : Char} (h : isPyDigit c = true) (d : Char)
    (hd : d.toNat < 48 ∨ 57 < d.toNat) : c ≠ d := by
  intro he
  subst he
  simp only [isPyDigit, Bool.and_eq_true, decide_eq_true_eq] at h
  omega

theorem digit_not_ws {c : Char} (h : isPyDigit c = true) : isPyWs c = false := by
  cases hb : isPyWs c with
  | false => rfl
  | true =>
    exfalso
    simp only [isPyWs, Bool.or_eq_true, decide_eq_true_eq] at hb
    have h' := h
    rcases hb with ((((h1 | h1) | h1) | h1) | h1) | h1 <;> subst h1 <;>
      exact absurd h' (by decide)

theorem toUpper_digit {c : Char} (h : isPyDigit c = true) : c.toUpper = c := by
  simp only [isPyDigit, Bool.and_eq_true, decide_eq_true_eq] at h
  unfold Char.toUpper
  rw [if_neg]
  omega

theorem toLower_digit {c : Char} (h : isPyDigit c = true) : c.toLower = c := by
  simp only [isPyDigit, Bool.and_eq_true, decide_eq_true_eq] at h
  unfold Char.toLower
  rw [if_neg]
  omega

theorem map_id_of {f : Char → Char} {l : List Char} (h : ∀ c ∈ l, f c = c) :
    l.map f = l := by
  induction l with
  | nil => rfl
  | cons a t ih =>
    simp only [List.map_cons, h a (by simp), ih (fun c hc => h c (by simp [hc]))]

/-- The head of the rest stops a digit run (neither digit nor underscore),
or the rest is empty. -/
def stopsRun : List Char → Prop
  | [] => True
  | c :: _ => isPyDigit c = false ∧ c ≠ '_'

theorem digitsUAux_append (acc cnt : Nat) (ds rest : List Char)
    (hds : ∀ c ∈ ds, isPyDigit c = true) (hrest : stopsRun rest) :
    digitsUAux acc cnt (ds ++ rest) =
      (ds.foldl (fun a c => 10 * a + dv c) acc, cnt + ds.length, rest) := by
  induction ds generalizing acc cnt with
  | nil =>
    cases rest with
    | nil => rfl
    | cons c r =>
      obtain ⟨h1, h2⟩ := hrest
      show digitsUAux acc cnt (c :: r) = _
      unfold digitsUAux
      rw [if_neg (by simp [h1]), if_neg h2]
      simp
  | cons d ds' ih =>
    have hd := hds d (by simp)
    show digitsUAux acc cnt (d :: (ds' ++ rest)) = _
    unfold digitsUAux
    rw [if_pos hd]
    rw [ih (10 * acc + dv d) (cnt + 1) (fun c hc => hds c (by simp [hc]))]
    have hcnt : cnt + 1 + ds'.length = cnt + (d :: ds').length := by
      simp only [List.length_cons]
      omega
    rw [hcnt, List.foldl_cons]

theorem digitsU_append (ds rest : List Char) (hne : ds ≠ [])
    (hds : ∀ c ∈ ds, isPyDigit c = true) (hrest : stopsRun rest) :
    digitsU (ds ++ rest) = some (decDigits ds, ds.length, rest) := by
  cases ds with
  | nil => exact absurd rfl hne
  | cons d ds' =>
    have hd := hds d (by simp)
    rw [List.cons_append]
    have hu : digitsU (d :: (ds' ++ rest)) =
        if isPyDigit d = true then some (digitsUAux (dv d) 1 (ds' ++ rest))
        else none := rfl
    rw [hu, if_pos hd]
    rw [digitsUAux_append (dv d) 1 ds' rest (fun c hc => hds c (by simp [hc])) hrest]
    have h1 : List.foldl (fun a c => 10 * a + dv c) (dv d) ds' =
        decDigits (d :: ds') := by
      simp [decDigits]
    have h2 : 1 + ds'.length = (d :: ds').length := by
      simp [Nat.add_comm]
    rw [h1, h2]

theorem floatMantissa_decimal (ds fs : List Char) (hne : ds ≠ [])
    (hall : ∀ c ∈ ds, isPyDigit c = true) (hfne : fs ≠ [])
    (hfall : ∀ c ∈ fs, isPyDigit c = true) :
    floatMantissa (ds ++ '.' :: fs) =
      some ((decDigits ds : ℚ) + (decDigits fs : ℚ) / 10 ^ fs.length, []) := by
  cases ds with
  | nil => exact absurd rfl hne
  | cons d ds' =>
    have hd := hall d (by simp)
    have hstop : stopsRun ('.' :: fs) := ⟨by decide, by decide⟩
    have hfs2 : digitsU fs = some (decDigits fs, fs.length, []) := by
      have := digitsU_append fs [] hfne hfall trivial
      simpa using this
    simp only [List.cons_append, floatMantissa, if_neg (digit_ne hd '.' (by decide))]
    rw [show d :: (ds' ++ '.' :: fs) = (d :: ds') ++ ('.' :: fs) from rfl,
      digitsU_append (d :: ds') ('.' :: fs) (by simp) hall hstop]
    simp [hfs2]

theorem floatMantissa_int (ds : List Char) (hne : ds ≠ [])
    (hall : ∀ c ∈ ds, isPyDigit c = true) :
    floatMantissa ds = some ((decDigits ds : ℚ), []) := by
  cases ds with
  | nil => exact absurd rfl hne
  | cons d ds' =>
    have hd := hall d (by simp)
    have := digitsU_append (d :: ds') [] (by simp) hall trivial
    simp only [List.append_nil] at this
    simp only [floatMantissa, if_neg (digit_ne hd '.' (by decide)), this]

theorem pyFloat_head_digit_setup {d : Char} (rest : List Char)
    (hd : isPyDigit d = true) :
    pyFloatOfChars (d :: rest) =
      (match floatMantissa (d :: rest) with
      | some (m, r1) =>
        match floatExp r1 with
        | some (sc, r2) =>
          if r2.all isPyWs then some (PyFloat.finite (m * sc)) else none
        | none => none
      | none => none) := by
  simp only [pyFloatOfChars, List.dropWhile_cons, digit_not_ws hd,
    Bool.false_eq_true, if_false]
  rw [show pyFloatSign (d :: rest) = (false, d :: rest) from by
    simp only [pyFloatSign, if_neg (digit_ne hd '-' (by decide)),
      if_neg (digit_ne hd '+' (by decide))]]
  have hlow : (d :: rest).map Char.toLower = d.toLower :: rest.map Char.toLower :=
    rfl
  rw [hlow, toLower_digit hd]
  rw [show ("infinity".toList.isPrefixOf (d :: rest.map Char.toLower)) = false from by
    simp [List.isPrefixOf, beq_eq_false_iff_ne,
      (digit_ne hd 'i' (by decide)).symm]]
  rw [show ("inf".toList.isPrefixOf (d :: rest.map Char.toLower)) = false from by
    simp [List.isPrefixOf, beq_eq_false_iff_ne,
      (digit_ne hd 'i' (by decide)).symm]]
  rw [show ("nan".toList.isPrefixOf (d :: rest.map Char.toLower)) = false from by
    simp [List.isPrefixOf, beq_eq_false_iff_ne,
      (digit_ne hd 'n' (by decide)).symm]]
  simp

theorem stripBy_eq_self {p : Char → Bool} {l : List Char}
    (h : ∀ c ∈ l, p c = false) : stripBy p l = l := by
  have h1 : ∀ (m : List Char), (∀ c ∈ m, p c = false) → m.dropWhile p = m := by
    intro m hm
    cases m with
    | nil => rfl
    | cons a t => simp [List.dropWhile_cons, hm a (by simp)]
  unfold stripBy
  rw [h1 l h, h1 l.reverse (fun c hc => h c (List.mem_reverse.mp hc)),
    List.reverse_reverse]

theorem pyFloat_decimal (ds fs : List Char) (hne : ds ≠ [])
    (hall : ∀ c ∈ ds, isPyDigit c = true) (hfne : fs ≠ [])
    (hfall : ∀ c ∈ fs, isPyDigit c = true) :
    pyFloatOfChars (ds ++ '.' :: fs) =
      some (PyFloat.finite
        ((decDigits ds : ℚ) + (decDigits fs : ℚ) / 10 ^ fs.length)) := by
  cases ds with
  | nil => exact absurd rfl hne
  | cons d ds' =>
    rw [List.cons_append, pyFloat_head_digit_setup (ds' ++ '.' :: fs)
      (hall d (by simp)), ← List.cons_append,
      floatMantissa_decimal (d :: ds') fs (by simp) hall hfne hfall]
    simp [floatExp]

theorem pyFloat_int (ds : List Char) (hne : ds ≠ [])
    (hall : ∀ c ∈ ds, isPyDigit c = true) :
    pyFloatOfChars ds = some (PyFloat.finite (decDigits ds : ℚ)) := by
  cases ds with
  | nil => exact absurd rfl hne
  | cons d ds' =>
    rw [pyFloat_head_digit_setup ds' (hall d (by simp)),
      floatMantissa_int (d :: ds') (by simp) hall]
    simp [floatExp]

theorem radius_token_maps (ds fs : List Char)
    (hall : ∀ c ∈ ds, isPyDigit c = true)
    (hfall : ∀ c ∈ fs, isPyDigit c = true) :
    pyStrip ('R' :: ds ++ ',' :: fs) = 'R' :: ds ++ ',' :: fs ∧
    ('R' :: ds ++ ',' :: fs).map Char.toUpper = 'R' :: ds ++ ',' :: fs ∧
    (ds ++ ',' :: fs).map commaDot = ds ++ '.' :: fs := by
  refine ⟨stripBy_eq_self ?_, ?_, ?_⟩
  · intro c hc
    rcases List.mem_cons.mp hc with rfl | hc
    · rfl
    rcases List.mem_append.mp hc with hc | hc
    · exact digit_not_ws (hall c hc)
    rcases List.mem_cons.mp hc with rfl | hc
    · rfl
    · exact digit_not_ws (hfall c hc)
  · simp only [List.map_cons, List.map_append]
    rw [map_id_of (fun c hc => toUpper_digit (hall c hc)),
      map_id_of (fun c hc => toUpper_digit (hfall c hc))]
    rfl
  · simp only [List.map_cons, List.map_append]
    rw [map_id_of (fun c hc => by
      unfold commaDot
      rw [if_neg (digit_ne (hall c hc) ',' (by decide))]),
      map_id_of (fun c hc => by
      unfold commaDot
      rw [if_neg (digit_ne (hfall c hc) ',' (by decide))])]
    rfl

theorem pyStrip_int_token (ds : List Char)
    (hall : ∀ c ∈ ds, isPyDigit c = true) :
    pyStrip ('R' :: ds) = 'R' :: ds ∧
    ('R' :: ds).map Char.toUpper = 'R' :: ds ∧
    ds.map commaDot = ds := by
  refine ⟨stripBy_eq_self ?_, ?_, ?_⟩
  · intro c hc
    rcases List.mem_cons.mp hc with rfl | hc
    · rfl
    · exact digit_not_ws (hall c hc)
  · simp only [List.map_cons]
    rw [map_id_of (fun c hc => toUpper_digit (hall c hc))]
    rfl
  · exact map_id_of (fun c hc => by
      unfold commaDot
      rw [if_neg (digit_ne (hall c hc) ',' (by decide))])

theorem parse_radius_decimal_val (ds fs : List Char) (h1 : ds ≠ [])
    (h2 : ∀ c ∈ ds, isPyDigit c = true) (h3 : fs ≠ [])
    (h4 : ∀ c ∈ fs, isPyDigit c = true) :
    parse_radius ('R' :: ds ++ ',' :: fs) =
      some (PyFloat.finite
        ((decDigits ds : ℚ) + (decDigits fs : ℚ) / 10 ^ fs.length)) := by
  obtain ⟨hs, hu, hm⟩ := radius_token_maps ds fs h2 h4
  have hpre : ("R".toList.isPrefixOf ('R' :: ds ++ ',' :: fs)) = true := by
    simp [List.isPrefixOf]
  simp only [parse_radius, hs, hu, hpre, if_true, List.drop_one]
  rw [show ('R' :: ds ++ ',' :: fs).tail = ds ++ ',' :: fs from rfl, hm]
  rw [if_neg (by simp [h1] : ¬(ds ++ '.' :: fs) = [])]
  exact pyFloat_decimal ds fs h1 h2 h3 h4

theorem parse_radius_int_val (ds : List Char) (h1 : ds ≠ [])
    (h2 : ∀ c ∈ ds, isPyDigit c = true) :
    parse_radius ('R' :: ds) = some (PyFloat.finite (decDigits ds : ℚ)) := by
  obtain ⟨hs, hu, hm⟩ := pyStrip_int_token ds h2
  have hpre : ("R".toList.isPrefixOf ('R' :: ds)) = true := by
    simp [List.isPrefixOf]
  simp only [parse_radius, hs, hu, hpre, if_true, List.drop_one]
  rw [show ('R' :: ds).tail = ds from rfl, hm]
  rw [if_neg h1]
  exact pyFloat_int ds h1 h2

/-- C7 (counterexample): `_parse_radius("RINF")` returns a value
(infinity), although `INF` is not a decimal number — `float()` accepts far
more than decimal numbers. -/
theorem c7_counterexample :
    parse_radius "RINF".toList = some PyFloat.inf ∧
    specIsDecimalNumber "INF".toList = false := by decide

/-- C7 (amended): `_parse_radius` returns a value iff the stripped,
upper-cased token starts with `R` and the non-empty remainder, after
comma-to-dot substitution, is accepted by Python's `float()` — which
accepts decimal numbers (with `,` or `.` as separator, second and third
conjuncts give the exact values) but also signs, exponents,
infinity/nan words, underscore digit separators and surrounding
whitespace; on any other input it returns none, and it never raises. -/
theorem c7_parse_radius :
    (∀ t : List Char, (parse_radius t).isSome = true ↔
      ∃ rest, (pyStrip t).map Char.toUpper = 'R' :: rest ∧ rest ≠ [] ∧
        (pyFloatOfChars (rest.map commaDot)).isSome = true) ∧
    (∀ ds fs : List Char, ds ≠ [] → (∀ c ∈ ds, isPyDigit c = true) →
      fs ≠ [] → (∀ c ∈ fs, isPyDigit c = true) →
      parse_radius ('R' :: ds ++ ',' :: fs) =
        some (PyFloat.finite
          ((decDigits ds : ℚ) + (decDigits fs : ℚ) / 10 ^ fs.length))) ∧
    (∀ ds : List Char, ds ≠ [] → (∀ c ∈ ds, isPyDigit c = true) →
      parse_radius ('R' :: ds) = some (PyFloat.finite (decDigits ds : ℚ))) := by
  refine ⟨?_, ?_, ?_⟩
  · intro t
    cases hv : (pyStrip t).map Char.toUpper with
    | nil =>
      simp [parse_radius, hv, List.isPrefixOf]
    | cons c rest =>
      by_cases hc : c = 'R'
      · subst hc
        have hpre : ("R".toList.isPrefixOf ('R' :: rest)) = true := by
          simp [List.isPrefixOf]
        simp only [parse_radius, hv, hpre, if_true, List.drop_one]
        rw [show ('R' :: rest).tail = rest from rfl]
        constructor
        · intro h
          by_cases hrn : rest.map commaDot = []
          · rw [if_pos hrn] at h
            simp at h
          · rw [if_neg hrn] at h
            exact ⟨rest, rfl, fun he => hrn (by simp [he]), h⟩
        · rintro ⟨rest', heq, hne', hsome⟩
          have : rest' = rest := by
            have h := heq
            simp only [List.cons.injEq] at h
            exact h.2.symm
          subst this
          rw [if_neg (fun he => hne' (by simpa using he))]
          exact hsome
      · have hpre : ("R".toList.isPrefixOf (c :: rest)) = false := by
          simp [List.isPrefixOf, beq_eq_false_iff_ne]
          exact Ne.symm hc
        simp only [parse_radius, hv, hpre, Bool.false_eq_true, if_false]
        simp only [Option.isSome_none, Bool.false_eq_true, false_iff]
        rintro ⟨rest', heq, -, -⟩
        simp only [List.cons.injEq] at heq
        exact hc heq.1
  · exact parse_radius_decimal_val
  · exact parse_radius_int_val

/-- C7 (witness): `R0,5` parses to one half; `R12` parses to twelve. -/
theorem c7_parse_radius_witness :
    parse_radius ('R' :: ['0'] ++ ',' :: ['5']) =
      some (PyFloat.finite
        ((decDigits ['0'] : ℚ) + (decDigits ['5'] : ℚ) / 10 ^ (['5'] : List Char).length)) ∧
    parse_radius ('R' :: ['1', '2']) =
      some (PyFloat.finite (decDigits ['1', '2'] : ℚ)) :=
  ⟨(c7_parse_radius.2.1) ['0'] ['5'] (by decide) (by decide) (by decide)
      (by decide),
   (c7_parse_radius.2.2) ['1', '2'] (by decide) (by decide)⟩

/-! ## Claim C8 -/

theorem pySplitWsAux_no_ws :
    ∀ (s acc : List Char), (∀ c ∈ acc, isPyWs c = false) →
      ∀ t ∈ pySplitWsAux s acc, ∀ c ∈ t, isPyWs c = false := by
  intro s
  induction s with
  | nil =>
    intro acc hacc t ht c hc
    simp only [pySplitWsAux] at ht
    split_ifs at ht with h0
    · simp at ht
    · simp only [List.mem_singleton] at ht
      subst ht
      exact hacc c (List.mem_reverse.mp hc)
  | cons a s ih =>
    intro acc hacc t ht c hc
    simp only [pySplitWsAux] at ht
    split_ifs at ht with hws hemp
    · exact ih [] (by simp) t ht c hc
    · rcases List.mem_cons.mp ht with rfl | ht
      · exact hacc c (List.mem_reverse.mp hc)
      · exact ih [] (by simp) t ht c hc
    · refine ih (a :: acc) ?_ t ht c hc
      intro d hd
      rcases List.mem_cons.mp hd with rfl | hd
      · exact Bool.not_eq_true _ ▸ hws
      · exact hacc d hd

theorem stripBy_subset {p : Char → Bool} {l : List Char} {c : Char}
    (h : c ∈ stripBy p l) : c ∈ l := by
  unfold stripBy at h
  rw [List.mem_reverse] at h
  have h2 : c ∈ (l.dropWhile p).reverse := (List.dropWhile_sublist p).subset h
  rw [List.mem_reverse] at h2
  exact (List.dropWhile_sublist p).subset h2

theorem zoneTokens_no_ws (content : List Char) :
    ∀ t ∈ zoneTokens content, ∀ c ∈ t, isPyWs c = false := by
  intro t ht c hc
  unfold zoneTokens at ht
  have ht2 := (List.mem_filter.mp ht).1
  obtain ⟨t0, ht0, rfl⟩ := List.mem_map.mp ht2
  have hc0 : c ∈ t0 := stripBy_subset (stripBy_subset hc)
  exact pySplitWsAux_no_ws _ [] (by simp) t0 ht0 c hc0

theorem parse_radius_prefixR {first : List Char} {r : PyFloat}
    (hnws : ∀ c ∈ first, isPyWs c = false)
    (h : parse_radius first = some r) :
    "R".toList.isPrefixOf (first.map Char.toUpper) = true := by
  have hps : pyStrip first = first := stripBy_eq_self hnws
  unfold parse_radius at h
  rw [hps] at h
  by_cases hp : "R".toList.isPrefixOf (first.map Char.toUpper) = true
  · exact hp
  · rw [if_neg (by simpa using hp)] at h
    exact absurd h (by simp)

/-- C8: when the captured `/ZONA` content tokenises with a first token
that parses as a radius and a first coordinate-shaped token among the
remaining tokens, the resolved zone is a `Center` whose radius is the
parsed radius and whose centre is the decoded coordinate token. -/
theorem c8_zona_center (shr content first : List Char)
    (restT : List (List Char)) (r : PyFloat) (ctok : List Char)
    (hcap : zonaCapture shr = some content)
    (htok : zoneTokens content = first :: restT)
    (hrad : parse_radius first = some r)
    (hfind : restT.find? is_coordinate_token = some ctok) :
    ∃ c, Coordinate.from_str ctok = Except.ok c ∧
      extract_zone shr = Except.ok
        (some ⟨ZoneType.center, some c, some r, none, none⟩) := by
  have hct : is_coordinate_token ctok = true := List.find?_some hfind
  obtain ⟨c, hc⟩ := from_str_ok_exists (is_coordinate_token_from_str hct)
  refine ⟨c, hc, ?_⟩
  have hnws : ∀ ch ∈ first, isPyWs ch = false := by
    intro ch hch
    exact zoneTokens_no_ws content first
      (htok ▸ List.mem_cons_self first restT) ch hch
  have hpre := parse_radius_prefixR hnws hrad
  have hrb : zoneRBranch (first :: restT) = some (r, ctok) := by
    have hlen : 2 ≤ (first :: restT).length := by
      cases restT with
      | nil => simp at hfind
      | cons a b => simp [List.length_cons]
    have hu : zoneRBranch (first :: restT) =
        if ("R".toList.isPrefixOf (first.map Char.toUpper) &&
            decide (2 ≤ (first :: restT).length)) = true then
          match parse_radius first, restT.find? is_coordinate_token with
          | some radius, some centerTok => some (radius, centerTok)
          | _, _ => none
        else none := rfl
    have hcond : ("R".toList.isPrefixOf (first.map Char.toUpper) &&
        decide (2 ≤ (first :: restT).length)) = true := by
      rw [Bool.and_eq_true]
      exact ⟨hpre, decide_eq_true hlen⟩
    rw [hu, if_pos hcond, hrad, hfind]
  have hpz : parse_zone_content content =
      Except.ok (some ⟨ZoneType.center, some c, some r, none, none⟩) := by
    simp only [parse_zone_content, htok, hrb, hc, ok_bind]
  simp only [extract_zone, hcap, hpz, ok_bind]

/-- C8 (witness): the spec's Scenario A — `/ZONA R0,5 4408N04308E/`
yields a Center zone with radius 0.5 and centre (44 + 8/60, 43 + 8/60)
≈ (44.1333, 43.1333). -/
theorem c8_zona_center_witness :
    (∃ c, Coordinate.from_str "4408N04308E".toList = Except.ok c ∧
      extract_zone "/ZONA R0,5 4408N04308E/".toList = Except.ok
        (some ⟨ZoneType.center, some c,
          some ((parse_radius "R0,5".toList).getD PyFloat.nan), none, none⟩)) ∧
    (parse_radius "R0,5".toList).getD PyFloat.nan = PyFloat.finite (1 / 2) ∧
    Coordinate.from_str "4408N04308E".toList =
      Except.ok ⟨662 / 15, 647 / 15⟩ := by
  refine ⟨c8_zona_center "/ZONA R0,5 4408N04308E/".toList
      "R0,5 4408N04308E".toList "R0,5".toList ["4408N04308E".toList]
      ((parse_radius "R0,5".toList).getD PyFloat.nan) "4408N04308E".toList
      (by rfl) (by rfl) (by rfl) (by rfl), ?_, ?_⟩
  · have hval : parse_radius "R0,5".toList =
        some (PyFloat.finite
          ((decDigits ['0'] : ℚ) + (decDigits ['5'] : ℚ) / 10 ^
            (['5'] : List Char).length)) :=
      parse_radius_decimal_val ['0'] ['5'] (by decide) (by decide) (by decide)
        (by decide)
    rw [show "R0,5".toList = 'R' :: ['0'] ++ ',' :: ['5'] from rfl] at *
    rw [hval]
    have hd0 : decDigits ['0'] = 0 := rfl
    have hd5 : decDigits ['5'] = 5 := rfl
    simp only [Option.getD_some, hd0, hd5, PyFloat.finite.injEq]
    norm_num
  · have e : Coordinate.from_str "4408N04308E".toList =
        Except.ok ⟨((10 * dv '4' + dv '4' : ℕ) : ℚ) +
            ((10 * dv '0' + dv '8' : ℕ) : ℚ) / 60,
          ((100 * dv '0' + 10 * dv '4' + dv '3' : ℕ) : ℚ) +
            ((10 * dv '0' + dv '8' : ℕ) : ℚ) / 60⟩ := rfl
    rw [e]
    have h4 : dv '4' = 4 := rfl
    have h0 : dv '0' = 0 := rfl
    have h8 : dv '8' = 8 := rfl
    have h3 : dv '3' = 3 := rfl
    simp only [Except.ok.injEq, Coordinate.mk.injEq, h4, h0, h8, h3]
    norm_num

end DataParser

